import Mathlib

/-!
# Task manager API: a shallow embedding of the backend

The backend is an Express application (`src/backend`): `middleware/auth.js` (the `protect`
gate), `utils/validation.js` (express-validator chains), `models/User.js` (the Mongoose
schemas) and `routes/users.js` (profile, password and task routes).

The store is the `users` collection.  Every route is a function from the store, the
environment of the request (clock readings, the generated ObjectId) and the request to a
response and the next store.  Functions of third-party packages whose result cannot be
computed from the repository (token verification, date parsing, password hashing) are
fields of `Lib`.  ObjectIds are natural numbers; path parameters are taken as ObjectIds.
The packages are read as the code addresses them: Mongoose 6 (`config/db.js`),
express-validator 6 (`err.param`), bcryptjs and jsonwebtoken.
-/

namespace TaskManager

/-! ## JavaScript strings -/

/-- White space and line terminators removed by `String.prototype.trim`. -/
def jsWhiteSpace (c : Char) : Bool :=
  let n := c.toNat
  n = 0x09 || n = 0x0A || n = 0x0B || n = 0x0C || n = 0x0D || n = 0x20 || n = 0xA0 ||
  n = 0x1680 || (0x2000 ≤ n && n ≤ 0x200A) || n = 0x2028 || n = 0x2029 || n = 0x202F ||
  n = 0x205F || n = 0x3000 || n = 0xFEFF

/-- Characters of `s.trim()`. -/
def trimChars (cs : List Char) : List Char :=
  ((cs.dropWhile jsWhiteSpace).reverse.dropWhile jsWhiteSpace).reverse

/-- JavaScript `s.trim()`. -/
def jsTrim (s : String) : String := String.mk (trimChars s.data)

/-- JavaScript `s.length`: the number of UTF-16 code units. -/
def jsLength (s : String) : Nat :=
  (s.data.map fun c => if 0x10000 ≤ c.toNat then 2 else 1).sum

/-- JavaScript `s.startsWith(p)`. -/
def jsStartsWith (s p : String) : Bool := p.data.isPrefixOf s.data

/-- Pieces of `cs` between single spaces; `cur` is the piece being read, reversed. -/
def splitSpaceAux : List Char → List Char → List String
  | [], cur => [String.mk cur.reverse]
  | c :: cs, cur =>
    if c = ' ' then String.mk cur.reverse :: splitSpaceAux cs [] else splitSpaceAux cs (c :: cur)

/-- JavaScript `s.split(' ')`. -/
def jsSplitSpace (s : String) : List String := splitSpaceAux s.data []

/-! ## Data model (`models/User.js`) -/

abbrev ObjectId := Nat

/-- A stored subdocument of `TaskSchema`.  `title` is required and `status` has a default,
so both are always present in a stored task; dates are milliseconds. -/
structure Task where
  _id : ObjectId
  title : String
  description : Option String
  status : String
  dueDate : Option Nat
  createdAt : Nat
  updatedAt : Nat
deriving DecidableEq, Repr

/-- The `settings` object of `UserSchema`. -/
structure Settings where
  notificationEmail : String
  theme : String
  defaultTaskStatus : String
deriving DecidableEq, Repr

/-- A stored document of `UserSchema`. -/
structure User where
  _id : ObjectId
  name : String
  email : String
  password : String
  tasks : List Task
  settings : Settings
  createdAt : Nat
  updatedAt : Nat
deriving DecidableEq, Repr

/-- A user document as a query returns it.  The schema declares `password` with
`select: false`, so a query that does not ask for it by `.select('+password')` returns
the document without the field: `password` is `none` (JavaScript `undefined`). -/
structure UserDoc where
  _id : ObjectId
  name : String
  email : String
  password : Option String
  tasks : List Task
  settings : Settings
  createdAt : Nat
  updatedAt : Nat
deriving DecidableEq, Repr

/-- The `users` collection. -/
structure Store where
  users : List User
deriving DecidableEq, Repr

/-- What a request reads from outside the store. -/
structure Env where
  /-- The clock read by `jwt.verify`. -/
  verifyAt : Nat
  /-- The clock read by `jwt.sign`. -/
  signAt : Nat
  /-- The ObjectId Mongoose generates for a new document or subdocument. -/
  newId : ObjectId
  /-- The reading of `Date.now()` for the `createdAt` default of a new document or
  subdocument. -/
  createdAtDefault : Nat
  /-- The reading of `Date.now()` for the `updatedAt` default of a new document or
  subdocument. -/
  updatedAtDefault : Nat
  /-- The reading of `Date.now()` in the handler body (`task.updatedAt = Date.now()`). -/
  handlerNow : Nat
  /-- The reading of `Date.now()` in the `pre('save')` hook. -/
  saveNow : Nat
  /-- The salt `bcrypt.genSalt(10)` returns. -/
  salt : String

/-- Third-party functions the routes call. -/
structure Lib where
  /-- The call `jwt.verify(token, JWT_SECRET)` at a clock reading: the `id` of the payload, or
  `none` when verification throws. -/
  jwtVerify : String → Nat → Option ObjectId
  /-- validator.js `isISO8601`. -/
  isISO8601 : String → Bool
  /-- validator.js `toDate`: `Date.parse` of the string, `none` (null) when it is NaN. -/
  toDate : String → Option Nat
  /-- validator.js `isEmail`. -/
  isEmail : String → Bool
  /-- The call `bcrypt.hash(plaintext, salt)`. -/
  bcryptHash : String → String → String
  /-- The call `bcrypt.compare(plaintext, hash)` on two strings. -/
  bcryptCompare : String → String → Bool
  /-- The call `jwt.sign` on the payload with the user's `id`, with `JWT_SECRET` and `expiresIn: '1h'`,
  at a clock reading. -/
  jwtSign : ObjectId → Nat → String
  /-- JavaScript `String.prototype.toLowerCase`. -/
  toLowerCase : String → String

/-! ## Responses and errors -/

/-- The projection of a user the profile routes return. -/
structure UserView where
  _id : ObjectId
  name : String
  email : String
  settings : Option Settings
deriving DecidableEq, Repr

/-- A JSON response: the status and the fields of the body. -/
structure Response where
  status : Nat
  success : Bool
  message : Option String := none
  errors : Option (List (String × String)) := none
  token : Option String := none
  user : Option UserView := none
  tasks : Option (List Task) := none
  task : Option Task := none
deriving DecidableEq, Repr

/-- A thrown JavaScript error, as far as the error middleware reads it. -/
structure JsError where
  statusCode : Option Nat
  message : String
  code : Option Nat := none
deriving DecidableEq, Repr

/-- The error-handling middleware of `server.js`:
status `err.statusCode || 500`, `success: false`, message `err.message || 'Server Error'`. -/
def errorHandler (err : JsError) : Response :=
  { status := match err.statusCode with
      | some 0 => 500
      | some c => c
      | none => 500
    success := false
    message := some (if err.message = "" then "Server Error" else err.message) }

/-! ## Store operations (Mongoose queries) -/

/-- The document a query returns for a stored user (no `+password` selection). -/
def User.toDoc (u : User) : UserDoc :=
  { _id := u._id, name := u.name, email := u.email, password := none, tasks := u.tasks,
    settings := u.settings, createdAt := u.createdAt, updatedAt := u.updatedAt }

/-- The stored user with the given `_id`. -/
def Store.lookup (s : Store) (id : ObjectId) : Option User :=
  s.users.find? fun u => decide (u._id = id)

/-- The query `User.findById(id)`, with or without `.select('-password')`. -/
def Store.findById (s : Store) (id : ObjectId) : Option UserDoc :=
  (s.lookup id).map User.toDoc

/-- Apply `f` to the first user with the given `_id` (an update of one document). -/
def updateOne (id : ObjectId) (f : User → User) : List User → List User
  | [] => []
  | u :: us => if u._id = id then f u :: us else u :: updateOne id f us

/-- Remove the first user with the given `_id` (a deletion of one document). -/
def deleteOne (id : ObjectId) : List User → List User
  | [] => []
  | u :: us => if u._id = id then us else u :: deleteOne id us

/-- The task list of the stored user `id` (empty when there is no such user). -/
def Store.tasksOf (s : Store) (id : ObjectId) : List Task :=
  match s.lookup id with
  | some u => u.tasks
  | none => []

/-- The call `user.save()` on a loaded document whose `tasks` path changed and whose `password`
path did not: the password hook returns at once (`!this.isModified('password')`), the
second hook stamps `updatedAt`, and the stored document gets the new task array. -/
def Store.saveTasks (s : Store) (env : Env) (id : ObjectId) (tasks : List Task) : Store :=
  { users := updateOne id (fun u => { u with tasks := tasks, updatedAt := env.saveNow }) s.users }

/-! ## Middleware -/

/-- What a middleware did: the responses it sent, how often it called `next`, and the
document it left in `req.user`. -/
structure Effects where
  sent : List Response
  nextCalls : Nat
  reqUser : Option UserDoc := none
deriving DecidableEq, Repr

/-- A 401 response of `protect`. -/
def notAuthorized (message : String) : Response :=
  { status := 401, success := false, message := some message }

/-- The call `jwt.verify(token, process.env.JWT_SECRET)` on `split(' ')[1]`: jsonwebtoken
throws `jwt must be provided` on a missing or empty token before it verifies anything.
`none` stands for a throw. -/
def verifyToken (L : Lib) (token : Option String) (now : Nat) : Option ObjectId :=
  match token with
  | none => none
  | some t => if t = "" then none else L.jwtVerify t now

/-- JavaScript `!token` for the variable `token` of `protect`. -/
def tokenFalsy (token : Option String) : Bool :=
  match token with
  | none => true
  | some t => decide (t = "")

/-- The middleware `protect` of `middleware/auth.js`. -/
def protect (L : Lib) (env : Env) (s : Store) (authorization : Option String) : Effects :=
  let noToken := notAuthorized "Not authorized, no token"
  match authorization with
  | none => { sent := [noToken], nextCalls := 0 }
  | some header =>
    if header ≠ "" ∧ jsStartsWith header "Bearer" then
      let token := (jsSplitSpace header)[1]?
      match verifyToken L token env.verifyAt with
      | none => { sent := [notAuthorized "Not authorized, token failed"], nextCalls := 0 }
      | some id =>
        match s.findById id with
        | none => { sent := [notAuthorized "Not authorized, user not found"], nextCalls := 0 }
        | some u =>
          -- `next()` returned; control reaches the final `if (!token)`
          if tokenFalsy token then { sent := [noToken], nextCalls := 1, reqUser := some u }
          else { sent := [], nextCalls := 1, reqUser := some u }
    else { sent := [noToken], nextCalls := 0 }

/-- One entry of `validationResult(req).array()`, as far as `handleValidationErrors`
reads it. -/
structure ValidationError where
  param : String
  msg : String
deriving DecidableEq, Repr

/-- The middleware `handleValidationErrors` of `utils/validation.js`, on the errors the
chains before it collected. -/
def handleValidationErrors (errors : List ValidationError) : Effects :=
  if errors.isEmpty then { sent := [], nextCalls := 1 }
  else
    let extractedErrors := errors.map fun err => (err.param, err.msg)
    { sent := [{ status := 400, success := false, message := some "Validation failed",
                 errors := some extractedErrors }],
      nextCalls := 0 }

/-- The outcome of a route: the response the client gets (`none` when nothing is ever
sent) and the store afterwards. -/
abbrev Outcome := Option Response × Store

/-- Express runs the rest of a route only when the middleware called `next`; otherwise
the request ends with what the middleware sent and the store is as it was. -/
def Effects.andThen (e : Effects) (s : Store) (rest : Outcome) : Outcome :=
  match e.nextCalls with
  | 0 => (e.sent.head?, s)
  | _ + 1 => rest

/-! ## Validation chains (`utils/validation.js`) -/

/-- A JSON body of the task routes.  The four validated fields are strings when present;
`_id`, `createdAt` and `updatedAt` are the other paths of `TaskSchema` a body may name. -/
structure TaskBody where
  title : Option String := none
  description : Option String := none
  status : Option String := none
  dueDate : Option String := none
  _id : Option ObjectId := none
  createdAt : Option Nat := none
  updatedAt : Option Nat := none
deriving DecidableEq, Repr

/-- The body of the change-password route. -/
structure PasswordBody where
  currentPassword : Option String := none
  newPassword : Option String := none
deriving DecidableEq, Repr

/-- The string express-validator hands to a validator: `undefined` becomes `''`. -/
def fieldText (v : Option String) : String := v.getD ""

/-- The values the task `status` may take. -/
def taskStatuses : List String := ["pending", "in-progress", "completed"]

/-- One validator of a chain: an error with the given message when the check fails. -/
def check (param msg : String) (ok : Bool) : List ValidationError :=
  if ok then [] else [{ param := param, msg := msg }]

/-- One optional chain with a single validator: skipped when the field is `undefined`. -/
def checkOptional (param msg : String) (v : Option String) (ok : String → Bool) :
    List ValidationError :=
  match v with
  | none => []
  | some x => check param msg (ok x)

/-- The chains of `createTaskValidation`, in order.  validator.js `isLength` counts a
surrogate pair once, so it counts code points. -/
def createTaskValidation (L : Lib) (b : TaskBody) : List ValidationError :=
  check "title" "Task title is required" (decide (fieldText b.title ≠ "")) ++
  check "title" "Title cannot exceed 100 characters" (decide ((fieldText b.title).length ≤ 100)) ++
  checkOptional "description" "Description cannot exceed 500 characters" b.description
    (fun d => decide (d.length ≤ 500)) ++
  checkOptional "status" "Invalid task status" b.status (fun st => decide (st ∈ taskStatuses)) ++
  checkOptional "dueDate" "Invalid due date format" b.dueDate L.isISO8601

/-- The chains of `updateTaskValidation`, in order. -/
def updateTaskValidation (L : Lib) (b : TaskBody) : List ValidationError :=
  (match b.title with
   | none => []
   | some t =>
     check "title" "Title cannot be empty" (decide (1 ≤ t.length)) ++
     check "title" "Title cannot exceed 100 characters" (decide (t.length ≤ 100))) ++
  checkOptional "description" "Description cannot exceed 500 characters" b.description
    (fun d => decide (d.length ≤ 500)) ++
  checkOptional "status" "Invalid task status" b.status (fun st => decide (st ∈ taskStatuses)) ++
  checkOptional "dueDate" "Invalid due date format" b.dueDate L.isISO8601

/-- The chains of `changePasswordValidation`, in order. -/
def changePasswordValidation (b : PasswordBody) : List ValidationError :=
  check "currentPassword" "Current password is required"
    (decide (fieldText b.currentPassword ≠ "")) ++
  check "newPassword" "New password must be at least 6 characters"
    (decide (6 ≤ (fieldText b.newPassword).length))

/-! ## Schema validation on save (`models/User.js`) -/

/-- The first failing validator of the `title` path, on the value the `trim` setter
stored: `required`, then `maxlength` (which compares `value.length`). -/
def titleError (title : String) : Option String :=
  if title = "" then some "Task title is required"
  else if 100 < jsLength title then some "Task title cannot be more than 100 characters"
  else none

/-- The failing validator of the `description` path. -/
def descriptionError (description : Option String) : Option String :=
  match description with
  | none => none
  | some d =>
    if 500 < jsLength d then some "Task description cannot be more than 500 characters"
    else none

/-- The failing validator of the `status` path; Mongoose's message for `enum`. -/
def statusError (status : String) : Option String :=
  if status ∈ taskStatuses then none
  else some ("`" ++ status ++ "` is not a valid enum value for path `status`.")

/-- One line of a Mongoose `ValidationError` for the task at index `idx`. -/
def pathError (idx : Nat) (path : String) (e : Option String) : List String :=
  match e with
  | none => []
  | some m => ["tasks." ++ toString idx ++ "." ++ path ++ ": " ++ m]

/-- Validation of a subdocument that is new: every path with a validator is checked. -/
def validateNewTask (idx : Nat) (t : Task) : List String :=
  pathError idx "title" (titleError t.title) ++
  pathError idx "description" (descriptionError t.description) ++
  pathError idx "status" (statusError t.status)

/-- Validation of a loaded subdocument after assignments: a path is checked when it is
modified, that is when its value differs from the loaded one. -/
def validateModifiedTask (idx : Nat) (old new : Task) : List String :=
  (if new.title = old.title then [] else pathError idx "title" (titleError new.title)) ++
  (if new.description = old.description then []
   else pathError idx "description" (descriptionError new.description)) ++
  (if new.status = old.status then [] else pathError idx "status" (statusError new.status))

/-- The `ValidationError` that `user.save()` throws; it has no `statusCode`. -/
def validationFailed (lines : List String) : JsError :=
  { statusCode := none, message := "User validation failed: " ++ ", ".intercalate lines }

/-! ## Route handlers (`routes/users.js`) -/

/-- The response of the ownership check. -/
def forbidden : Response :=
  { status := 403, success := false, message := some "Unauthorized access" }

/-- The response when the path user is not in the store. -/
def userNotFound : Response :=
  { status := 404, success := false, message := some "User not found" }

/-- The response when the task id is not in the user's array. -/
def taskNotFound : Response :=
  { status := 404, success := false, message := some "Task not found or not owned by user" }

/-- The helper `checkTaskOwnership`: `user.tasks.id(taskId)`, the first subdocument with
that `_id`. -/
def checkTaskOwnership (user : UserDoc) (taskId : ObjectId) : Option Task :=
  user.tasks.find? fun t => decide (t._id = taskId)

/-- The handler of `GET /api/users/:id/tasks`. -/
def getTasksHandler (s : Store) (reqUser : UserDoc) (id : ObjectId) : Response × Store :=
  if reqUser._id ≠ id then (forbidden, s)
  else
    match s.findById id with
    | none => (userNotFound, s)
    | some user => ({ status := 200, success := true, tasks := some user.tasks }, s)

/-- The subdocument `user.tasks.push` makes of `title, description, dueDate, status`: the
`trim` setter runs on the title, `dueDate` is what the `toDate` sanitizer of the chain
left in the body, absent paths take their defaults.  An absent title is kept as the
empty string, which fails `required` just the same. -/
def newTask (L : Lib) (env : Env) (b : TaskBody) : Task :=
  { _id := env.newId
    title := match b.title with
      | some t => jsTrim t
      | none => ""
    description := b.description
    status := match b.status with
      | some st => st
      | none => "pending"
    dueDate := match b.dueDate with
      | some d => L.toDate d
      | none => none
    createdAt := env.createdAtDefault
    updatedAt := env.updatedAtDefault }

/-- The handler of `POST /api/users/:id/tasks`. -/
def createTaskHandler (L : Lib) (env : Env) (s : Store) (reqUser : UserDoc) (id : ObjectId)
    (b : TaskBody) : Response × Store :=
  if reqUser._id ≠ id then (forbidden, s)
  else
    match s.findById id with
    | none => (userNotFound, s)
    | some user =>
      let t := newTask L env b
      let tasks := user.tasks ++ [t]
      match validateNewTask user.tasks.length t with
      | [] =>
        ({ status := 201, success := true, message := some "Task created successfully",
           task := tasks.getLast? },
         s.saveTasks env id tasks)
      | e :: es => (errorHandler (validationFailed (e :: es)), s)

/-- The assignment `Object.assign(task, req.body)` followed by `task.updatedAt = Date.now()`: every path
of the schema the body names is set (the title through the `trim` setter, `dueDate` to what
the `toDate` sanitizer left), then `updatedAt` is overwritten. -/
def assignTask (L : Lib) (env : Env) (t : Task) (b : TaskBody) : Task :=
  { _id := match b._id with
      | some i => i
      | none => t._id
    title := match b.title with
      | some x => jsTrim x
      | none => t.title
    description := match b.description with
      | some d => some d
      | none => t.description
    status := match b.status with
      | some st => st
      | none => t.status
    dueDate := match b.dueDate with
      | some d => L.toDate d
      | none => t.dueDate
    createdAt := match b.createdAt with
      | some c => c
      | none => t.createdAt
    updatedAt := env.handlerNow }

/-- Replace the first task with the given `_id` by `new`. -/
def replaceTask (taskId : ObjectId) (new : Task) : List Task → List Task
  | [] => []
  | t :: ts => if t._id = taskId then new :: ts else t :: replaceTask taskId new ts

/-- The handler of `PUT /api/users/:id/tasks/:taskId`. -/
def updateTaskHandler (L : Lib) (env : Env) (s : Store) (reqUser : UserDoc)
    (id taskId : ObjectId) (b : TaskBody) : Response × Store :=
  if reqUser._id ≠ id then (forbidden, s)
  else
    match s.findById id with
    | none => (userNotFound, s)
    | some user =>
      match checkTaskOwnership user taskId with
      | none => (taskNotFound, s)
      | some task =>
        let updated := assignTask L env task b
        let idx := user.tasks.findIdx fun t => decide (t._id = taskId)
        match validateModifiedTask idx task updated with
        | [] =>
          ({ status := 200, success := true, message := some "Task updated successfully",
             task := some updated },
           s.saveTasks env id (replaceTask taskId updated user.tasks))
        | e :: es => (errorHandler (validationFailed (e :: es)), s)

/-- The handler of `DELETE /api/users/:id/tasks/:taskId`.  `task.remove()` on a
subdocument of an array is `parentArray.pull` with `_id: task._id`, which takes out every
element with that `_id`. -/
def deleteTaskHandler (env : Env) (s : Store) (reqUser : UserDoc) (id taskId : ObjectId) :
    Response × Store :=
  if reqUser._id ≠ id then (forbidden, s)
  else
    match s.findById id with
    | none => (userNotFound, s)
    | some user =>
      match checkTaskOwnership user taskId with
      | none => (taskNotFound, s)
      | some task =>
        let tasks := user.tasks.filter fun t => decide (t._id ≠ task._id)
        ({ status := 200, success := true, message := some "Task deleted successfully" },
         s.saveTasks env id tasks)

/-- The method `comparePassword` of the user document:
`bcrypt.compare(enteredPassword, this.password)`.  bcryptjs rejects with
`Illegal arguments` unless both arguments are strings. -/
def comparePassword (L : Lib) (user : UserDoc) (enteredPassword : Option String) :
    Except JsError Bool :=
  match enteredPassword, user.password with
  | some p, some h => .ok (L.bcryptCompare p h)
  | some _, none => .error { statusCode := none, message := "Illegal arguments: string, undefined" }
  | none, some _ => .error { statusCode := none, message := "Illegal arguments: undefined, string" }
  | none, none =>
    .error { statusCode := none, message := "Illegal arguments: undefined, undefined" }

/-- The call `user.save()` after `user.password = newPassword`: the path is validated
(`minlength`), the first hook stores `bcrypt.hash(password, salt)`, the second stamps
`updatedAt`. -/
def Store.savePassword (L : Lib) (s : Store) (env : Env) (id : ObjectId) (newPassword : String) :
    Store :=
  { users := updateOne id
      (fun u => { u with password := L.bcryptHash newPassword env.salt, updatedAt := env.saveNow })
      s.users }

/-- The handler of `PUT /api/users/:id/password`. -/
def changePasswordHandler (L : Lib) (env : Env) (s : Store) (reqUser : UserDoc) (id : ObjectId)
    (b : PasswordBody) : Response × Store :=
  if reqUser._id ≠ id then (forbidden, s)
  else
    match s.findById id with
    | none => (userNotFound, s)
    | some user =>
      match comparePassword L user b.currentPassword with
      | .error err => (errorHandler err, s)
      | .ok false =>
        ({ status := 400, success := false, message := some "Current password is incorrect" }, s)
      | .ok true =>
        match b.newPassword with
        | none =>
          (errorHandler (validationFailed ["password: Password is required"]), s)
        | some p =>
          if jsLength p < 6 then
            (errorHandler (validationFailed ["password: Password must be at least 6 characters"]), s)
          else
            ({ status := 200, success := true, message := some "Password updated successfully" },
             s.savePassword L env id p)

/-- The handler of `DELETE /api/users/:id`: `User.findByIdAndDelete`. -/
def deleteUserHandler (s : Store) (reqUser : UserDoc) (id : ObjectId) : Response × Store :=
  if reqUser._id ≠ id then (forbidden, s)
  else
    match s.lookup id with
    | none => (userNotFound, s)
    | some _ =>
      ({ status := 200, success := true, message := some "Account deleted successfully" },
       { users := deleteOne id s.users })

/-! ## Routes: the middleware chains as registered on the router -/

/-- A request to a `/api/users/:id...` route: the `Authorization` header, the path
parameters and the body. -/
structure Request (β : Type) where
  authorization : Option String
  id : ObjectId
  taskId : ObjectId := 0
  body : β

/-- Run a handler after `protect` has called `next`: the handler reads `req.user`. -/
def withUser (e : Effects) (s : Store) (handler : UserDoc → Outcome) : Outcome :=
  match e.reqUser with
  | some u => e.andThen s (handler u)
  | none => e.andThen s (some (errorHandler
      { statusCode := none, message := "Cannot read properties of undefined (reading 'id')" }), s)

/-- Lift a handler result to an outcome. -/
def sends (r : Response × Store) : Outcome := (some r.1, r.2)

/-- The route `router.get('/:id/tasks', protect, handler)`. -/
def getTasksRoute (L : Lib) (env : Env) (s : Store) (req : Request Unit) : Outcome :=
  withUser (protect L env s req.authorization) s fun u => sends (getTasksHandler s u req.id)

/-- The route `router.post('/:id/tasks', protect, createTaskValidation, handler)`. -/
def createTaskRoute (L : Lib) (env : Env) (s : Store) (req : Request TaskBody) : Outcome :=
  withUser (protect L env s req.authorization) s fun u =>
    (handleValidationErrors (createTaskValidation L req.body)).andThen s
      (sends (createTaskHandler L env s u req.id req.body))

/-- The route `router.put('/:id/tasks/:taskId', protect, updateTaskValidation, handler)`. -/
def updateTaskRoute (L : Lib) (env : Env) (s : Store) (req : Request TaskBody) : Outcome :=
  withUser (protect L env s req.authorization) s fun u =>
    (handleValidationErrors (updateTaskValidation L req.body)).andThen s
      (sends (updateTaskHandler L env s u req.id req.taskId req.body))

/-- The route `router.delete('/:id/tasks/:taskId', protect, handler)`. -/
def deleteTaskRoute (L : Lib) (env : Env) (s : Store) (req : Request Unit) : Outcome :=
  withUser (protect L env s req.authorization) s fun u =>
    sends (deleteTaskHandler env s u req.id req.taskId)

/-- The route `router.put('/:id/password', protect, changePasswordValidation, handler)`. -/
def changePasswordRoute (L : Lib) (env : Env) (s : Store) (req : Request PasswordBody) :
    Outcome :=
  withUser (protect L env s req.authorization) s fun u =>
    (handleValidationErrors (changePasswordValidation req.body)).andThen s
      (sends (changePasswordHandler L env s u req.id req.body))

/-- The route `router.delete('/:id', protect, handler)`. -/
def deleteUserRoute (L : Lib) (env : Env) (s : Store) (req : Request Unit) : Outcome :=
  withUser (protect L env s req.authorization) s fun u => sends (deleteUserHandler s u req.id)

/-! ## Requests by an authenticated user -/

/-- The middleware `protect` accepts the header as the stored user `id`: it sends
nothing, calls `next` once and leaves that user's document in `req.user`. -/
def authenticatedAs (L : Lib) (env : Env) (s : Store) (authorization : Option String)
    (id : ObjectId) : Prop :=
  ∃ u, s.lookup id = some u ∧
    protect L env s authorization = { sent := [], nextCalls := 1, reqUser := some u.toDoc }

/-! ## Sample data for concrete runs -/

/-- An instance of the third-party functions for concrete runs: one token per sample
user, one date string, and a hash that prefixes the salt. -/
def sampleLib : Lib where
  jwtVerify := fun t _ => if t = "token7" then some 7 else if t = "token8" then some 8 else none
  isISO8601 := fun d => decide (d = "2030-01-01")
  toDate := fun d => if d = "2030-01-01" then some 1893456000000 else none
  isEmail := fun e =>
    decide (e ∈ ["ann@example.com", "bob@example.com", "Ann@Example.com", "BOB@example.com",
      "cy@example.com", "cy@münchen.de"])
  bcryptHash := fun p salt => salt ++ p
  bcryptCompare := fun p h => decide (h = "salt" ++ p)
  jwtSign := fun id _ => "token" ++ toString id
  toLowerCase := fun e => String.mk (e.data.map Char.toLower)

/-- Clock readings and generated values of a sample request. -/
def sampleEnv : Env :=
  { verifyAt := 5000, signAt := 5001, newId := 103, createdAtDefault := 5000,
    updatedAtDefault := 5000, handlerNow := 5000, saveNow := 5001, salt := "salt" }

/-- The default settings of a user. -/
def defaultSettings : Settings :=
  { notificationEmail := "daily", theme := "light", defaultTaskStatus := "pending" }

/-- A stored task of the sample user. -/
def milk : Task :=
  { _id := 101, title := "Buy milk", description := none, status := "pending", dueDate := none,
    createdAt := 1000, updatedAt := 1000 }

/-- A second stored task of the sample user. -/
def report : Task :=
  { _id := 102, title := "Write report", description := some "quarterly", status := "in-progress",
    dueDate := some 1893456000000, createdAt := 2000, updatedAt := 3000 }

/-- A sample user with two tasks; the password is the sample hash of `secret1`. -/
def ann : User :=
  { _id := 7, name := "Ann", email := "ann@example.com", password := "saltsecret1",
    tasks := [milk, report], settings := defaultSettings, createdAt := 900, updatedAt := 3000 }

/-- A second sample user. -/
def bob : User :=
  { _id := 8, name := "Bob", email := "bob@example.com", password := "saltsecret2",
    tasks := [], settings := defaultSettings, createdAt := 950, updatedAt := 950 }

/-- A store with the two sample users. -/
def sampleStore : Store := { users := [ann, bob] }

/-- The 400 response of `handleValidationErrors`. -/
def validationFailedResponse (errors : List ValidationError) : Response :=
  { status := 400, success := false, message := some "Validation failed",
    errors := some (errors.map fun err => (err.param, err.msg)) }

/-- The response of a successful `GET /api/users/:id/tasks`. -/
def tasksResponse (tasks : List Task) : Response :=
  { status := 200, success := true, tasks := some tasks }

/-- A create-task request by the sample user with a padded title. -/
def paddedCreate : Request TaskBody :=
  { authorization := some "Bearer token7", id := 7,
    body := { title := some "  Buy eggs ", dueDate := some "2030-01-01" } }

/-- A list-tasks request by the sample user. -/
def listRequest : Request Unit :=
  { authorization := some "Bearer token7", id := 7, body := () }

/-- The task the sample create request makes. -/
def eggs : Task :=
  { _id := 103, title := "Buy eggs", description := none, status := "pending",
    dueDate := some 1893456000000, createdAt := 5000, updatedAt := 5000 }

/-- The sample store after the sample create request. -/
def storeWithEggs : Store :=
  { users := [{ ann with tasks := [milk, report, eggs], updatedAt := 5001 }, bob] }

/-- The response to the sample create request. -/
def eggsCreated : Response :=
  { status := 201, success := true, message := some "Task created successfully",
    task := some eggs }

/-- An update-task request by the sample user: a padded title and a new status for the
second task. -/
def retitleReport : Request TaskBody :=
  { authorization := some "Bearer token7", id := 7, taskId := 102,
    body := { title := some "  Write the report ", status := some "completed" } }

/-- The second sample task after `retitleReport`. -/
def reportRetitled : Task :=
  { report with title := "Write the report", status := "completed", updatedAt := 5000 }

/-- The sample store after `retitleReport`. -/
def storeRetitled : Store :=
  { users := [{ ann with tasks := [milk, reportRetitled], updatedAt := 5001 }, bob] }

/-- The response to `retitleReport`. -/
def retitledResponse : Response :=
  { status := 200, success := true, message := some "Task updated successfully",
    task := some reportRetitled }

/-- Readings of a request served entirely within clock millisecond 5000. -/
def tickEnv : Env :=
  { verifyAt := 5000, signAt := 5000, newId := 103, createdAtDefault := 5000,
    updatedAtDefault := 5000, handlerNow := 5000, saveNow := 5000, salt := "salt" }

/-- The sample store after `paddedCreate` served under `tickEnv`. -/
def storeWithEggsTick : Store :=
  { users := [{ ann with tasks := [milk, report, eggs], updatedAt := 5000 }, bob] }

/-- An update-task request for the task `eggs`. -/
def describeEggs : Request TaskBody :=
  { authorization := some "Bearer token7", id := 7, taskId := 103,
    body := { description := some "a dozen" } }

/-- The response of a successful delete-task request. -/
def taskDeleted : Response :=
  { status := 200, success := true, message := some "Task deleted successfully" }

/-- The response of a successful delete-account request. -/
def accountDeleted : Response :=
  { status := 200, success := true, message := some "Account deleted successfully" }

/-- A delete-task request by the sample user for an id none of the tasks has. -/
def deleteUnknown : Request Unit :=
  { authorization := some "Bearer token7", id := 7, taskId := 999, body := () }

/-- A delete-task request by the sample user for the first task. -/
def deleteMilk : Request Unit :=
  { authorization := some "Bearer token7", id := 7, taskId := 101, body := () }

/-- An update-task request whose body names `_id`: the id of the first task, sent for
the second. -/
def reidReport : Request TaskBody :=
  { authorization := some "Bearer token7", id := 7, taskId := 102, body := { _id := some 101 } }

/-- The sample store after `reidReport`: both tasks carry the id 101. -/
def storeTwins : Store :=
  { users := [{ ann with tasks := [milk, { report with _id := 101, updatedAt := 5000 }],
                         updatedAt := 5001 }, bob] }

/-- A delete-account request by the sample user. -/
def deleteAnn : Request Unit :=
  { authorization := some "Bearer token7", id := 7, body := () }

/-- A create-task request by the sample user with no title and an unknown status. -/
def untitledCreate : Request TaskBody :=
  { authorization := some "Bearer token7", id := 7, body := { status := some "done" } }

/-- A create-task request by the sample user whose title is three spaces. -/
def blankCreate : Request TaskBody :=
  { authorization := some "Bearer token7", id := 7, body := { title := some "   " } }

/-- A change-password request by the sample user with a wrong current password. -/
def wrongCurrent : Request PasswordBody :=
  { authorization := some "Bearer token7", id := 7,
    body := { currentPassword := some "guess99", newPassword := some "secret9" } }

/-- A change-password request by the sample user with the right current password. -/
def rightCurrent : Request PasswordBody :=
  { authorization := some "Bearer token7", id := 7,
    body := { currentPassword := some "secret1", newPassword := some "secret9" } }

/-- The error bcryptjs raises when the stored hash was not loaded. -/
def illegalArguments : JsError :=
  { statusCode := none, message := "Illegal arguments: string, undefined" }

/-! ## The email pattern of `UserSchema` -/

/-- Pieces of `cs` between occurrences of `sep`; `cur` is the piece being read, reversed. -/
def splitOnChar (sep : Char) : List Char → List Char → List (List Char)
  | [], cur => [cur.reverse]
  | c :: cs, cur =>
    if c = sep then cur.reverse :: splitOnChar sep cs [] else splitOnChar sep cs (c :: cur)

/-- The class `[^<>()[\]\\.,;:\s@"]` of the pattern. -/
def atomChar (c : Char) : Bool :=
  !(c = '<' || c = '>' || c = '(' || c = ')' || c = '[' || c = ']' || c = '\\' || c = '.' ||
    c = ',' || c = ';' || c = ':' || c = '@' || c = '"' || jsWhiteSpace c)

/-- A line terminator, which `.` of a JavaScript pattern does not match. -/
def lineTerminator (c : Char) : Bool :=
  c = '\n' || c = '\r' || c.toNat = 0x2028 || c.toNat = 0x2029

/-- The local part: atoms joined by single dots, or `".+"`. -/
def localPart (cs : List Char) : Bool :=
  (splitOnChar '.' cs []).all (fun p => !p.isEmpty && p.all atomChar) ||
  (3 ≤ cs.length && cs.head? = some '"' && cs.getLast? = some '"' &&
    (cs.drop 1).dropLast.all fun c => !lineTerminator c)

/-- The class `[a-zA-Z]`. -/
def asciiLetter (c : Char) : Bool :=
  ('a' ≤ c && c ≤ 'z') || ('A' ≤ c && c ≤ 'Z')

/-- The class `[0-9]`. -/
def asciiDigit (c : Char) : Bool := '0' ≤ c && c ≤ '9'

/-- The domain: four groups of one to three digits in brackets, or labels of letters,
digits and hyphens, each followed by a dot, and a last label of two or more letters. -/
def domainPart (cs : List Char) : Bool :=
  (cs.head? = some '[' && cs.getLast? = some ']' && 2 ≤ cs.length &&
    (let groups := splitOnChar '.' (cs.drop 1).dropLast []
     groups.length = 4 && groups.all fun g => 1 ≤ g.length && g.length ≤ 3 && g.all asciiDigit)) ||
  (let labels := splitOnChar '.' cs []
   2 ≤ labels.length &&
   labels.dropLast.all (fun l => !l.isEmpty && l.all fun c => asciiLetter c || asciiDigit c || c = '-') &&
   (match labels.getLast? with
    | some l => 2 ≤ l.length && l.all asciiLetter
    | none => false))

/-- The `match` pattern of the `email` path, anchored at both ends.  The domain holds no
`@`, so the `@` of the pattern is the last one of the string. -/
def emailPattern (e : String) : Bool :=
  let pieces := splitOnChar '@' e.data []
  2 ≤ pieces.length &&
  localPart (List.intercalate ['@'] pieces.dropLast) &&
  (match pieces.getLast? with
   | some d => domainPart d
   | none => false)

/-! ## Users: queries and schema validation -/

/-- The value Mongoose stores, and queries for, on the `email` path: the `trim` setter,
then the `lowercase` setter.  Setters run on documents, on updates and on query filters. -/
def normalizeEmail (L : Lib) (e : String) : String := L.toLowerCase (jsTrim e)

/-- The query `User.findOne` by `email`.  The filter value goes through the setters of the path; an
`undefined` value is dropped from the filter, which then matches the first document. -/
def Store.findOne (L : Lib) (s : Store) (email : Option String) : Option UserDoc :=
  match email with
  | none => s.users.head?.map User.toDoc
  | some e => (s.users.find? fun u => decide (u.email = normalizeEmail L e)).map User.toDoc

/-- The first failing validator of the `name` path, on the trimmed value. -/
def nameError (name : String) : Option String :=
  if name = "" then some "Name is required"
  else if 50 < jsLength name then some "Name cannot be more than 50 characters"
  else none

/-- The first failing validator of the `email` path, on the normalized value. -/
def emailError (email : String) : Option String :=
  if email = "" then some "Email is required"
  else if emailPattern email then none
  else some "Please add a valid email"

/-- The first failing validator of the `password` path, on the plaintext. -/
def passwordError (password : String) : Option String :=
  if password = "" then some "Password is required"
  else if jsLength password < 6 then some "Password must be at least 6 characters"
  else none

/-- One line of a Mongoose `ValidationError` for a path of the user. -/
def userPathError (path : String) (e : Option String) : List String :=
  match e with
  | none => []
  | some m => [path ++ ": " ++ m]

/-- The error of the MongoDB server on a second document with one value of a unique
index (`_id`, or `email`, which the schema declares `unique`). -/
def duplicateKey : JsError :=
  { statusCode := none, message := "E11000 duplicate key error collection", code := some 11000 }

/-! ## Routes of `routes/auth.js` -/

/-- The body of the signup route. -/
structure SignupBody where
  name : Option String := none
  email : Option String := none
  password : Option String := none
deriving DecidableEq, Repr

/-- The body of the login route. -/
structure LoginBody where
  email : Option String := none
  password : Option String := none
deriving DecidableEq, Repr

/-- The chains of `registerValidation`, in order. -/
def registerValidation (L : Lib) (b : SignupBody) : List ValidationError :=
  check "name" "Name is required" (decide (fieldText b.name ≠ "")) ++
  check "email" "Please include a valid email" (L.isEmail (fieldText b.email)) ++
  check "password" "Password must be at least 6 characters"
    (decide (6 ≤ (fieldText b.password).length))

/-- The chains of `loginValidation`, in order. -/
def loginValidation (L : Lib) (b : LoginBody) : List ValidationError :=
  check "email" "Please include a valid email" (L.isEmail (fieldText b.email)) ++
  check "password" "Password is required" (decide (fieldText b.password ≠ ""))

/-- The document `new User` of `name, email, password` is after the hooks of `save`: setters
on name and email, schema defaults, the hashed password, `updatedAt` from the second
hook. -/
def newUser (L : Lib) (env : Env) (b : SignupBody) : User :=
  { _id := env.newId
    name := jsTrim (fieldText b.name)
    email := normalizeEmail L (fieldText b.email)
    password := L.bcryptHash (fieldText b.password) env.salt
    tasks := []
    settings := { notificationEmail := "daily", theme := "light", defaultTaskStatus := "pending" }
    createdAt := env.createdAtDefault
    updatedAt := env.saveNow }

/-- Validation of a new user document, before the hooks: the paths in schema order. -/
def validateNewUser (L : Lib) (b : SignupBody) : List String :=
  userPathError "name" (nameError (jsTrim (fieldText b.name))) ++
  userPathError "email" (emailError (normalizeEmail L (fieldText b.email))) ++
  userPathError "password" (passwordError (fieldText b.password))

/-- The `user` object of the signup and login responses. -/
def authView (_id : ObjectId) (name email : String) : UserView :=
  { _id := _id, name := name, email := email, settings := none }

/-- The handler of `POST /api/auth/signup`. -/
def signupHandler (L : Lib) (env : Env) (s : Store) (b : SignupBody) : Response × Store :=
  match s.findOne L b.email with
  | some _ => ({ status := 400, success := false, message := some "User already exists" }, s)
  | none =>
    match validateNewUser L b with
    | e :: es => (errorHandler (validationFailed (e :: es)), s)
    | [] =>
      let user := newUser L env b
      if s.users.any (fun u => decide (u._id = user._id ∨ u.email = user.email)) then
        (errorHandler duplicateKey, s)
      else
        ({ status := 201, success := true, message := some "User registered successfully",
           token := some (L.jwtSign user._id env.signAt),
           user := some (authView user._id user.name user.email) },
         { users := s.users ++ [user] })

/-- The handler of `POST /api/auth/login`. -/
def loginHandler (L : Lib) (env : Env) (s : Store) (b : LoginBody) : Response × Store :=
  match s.findOne L b.email with
  | none => ({ status := 400, success := false, message := some "Invalid credentials" }, s)
  | some user =>
    match comparePassword L user b.password with
    | .error err => (errorHandler err, s)
    | .ok false => ({ status := 400, success := false, message := some "Invalid credentials" }, s)
    | .ok true =>
      ({ status := 200, success := true, message := some "Logged in successfully",
         token := some (L.jwtSign user._id env.signAt),
         user := some (authView user._id user.name user.email) }, s)

/-- The route `router.post('/signup', registerValidation, handler)`. -/
def signupRoute (L : Lib) (env : Env) (s : Store) (b : SignupBody) : Outcome :=
  (handleValidationErrors (registerValidation L b)).andThen s (sends (signupHandler L env s b))

/-- The route `router.post('/login', loginValidation, handler)`. -/
def loginRoute (L : Lib) (env : Env) (s : Store) (b : LoginBody) : Outcome :=
  (handleValidationErrors (loginValidation L b)).andThen s (sends (loginHandler L env s b))

/-! ## Profile routes of `routes/users.js` -/

/-- The `settings` object of an update-profile body. -/
structure SettingsBody where
  notificationEmail : Option String := none
  theme : Option String := none
  defaultTaskStatus : Option String := none
deriving DecidableEq, Repr

/-- The body of the update-profile route. -/
structure ProfileBody where
  name : Option String := none
  email : Option String := none
  settings : Option SettingsBody := none
deriving DecidableEq, Repr

/-- The setting of a field of `SettingsBody`, `undefined` when the object is absent. -/
def ProfileBody.setting (b : ProfileBody) (field : SettingsBody → Option String) : Option String :=
  match b.settings with
  | some st => field st
  | none => none

/-- The chains of `updateUserValidation`, in order; the `trim` sanitizer of the first
chain runs before its validator. -/
def updateUserValidation (L : Lib) (b : ProfileBody) : List ValidationError :=
  checkOptional "name" "Name cannot be empty" b.name (fun n => decide (1 ≤ (jsTrim n).length)) ++
  checkOptional "email" "Please include a valid email" b.email L.isEmail ++
  checkOptional "settings.notificationEmail" "Invalid notification email preference"
    (b.setting (·.notificationEmail))
    (fun v => decide (v ∈ ["immediate", "daily", "weekly", "none"])) ++
  checkOptional "settings.theme" "Invalid theme preference" (b.setting (·.theme))
    (fun v => decide (v ∈ ["light", "dark"])) ++
  checkOptional "settings.defaultTaskStatus" "Invalid default task status"
    (b.setting (·.defaultTaskStatus)) (fun v => decide (v ∈ ["pending", "in-progress"]))

/-- The profile a response shows. -/
def profileView (u : User) : UserView :=
  { _id := u._id, name := u.name, email := u.email, settings := some u.settings }

/-- The handler of `GET /api/users/:id`. -/
def getUserHandler (s : Store) (reqUser : UserDoc) (id : ObjectId) : Response × Store :=
  if reqUser._id ≠ id then (forbidden, s)
  else
    match s.lookup id with
    | none => (userNotFound, s)
    | some user => ({ status := 200, success := true, user := some (profileView user) }, s)

/-- The document after `findByIdAndUpdate(id, updateFields)`: `undefined` keys are dropped
from the update, name and email go through their setters, and a `settings` object replaces
the stored one; a field the new object lacks reads back as the default of the schema. -/
def applyProfile (L : Lib) (u : User) (b : ProfileBody) : User :=
  { u with
    name := match b.name with
      | some n => jsTrim n
      | none => u.name
    email := match b.email with
      | some e => normalizeEmail L e
      | none => u.email
    settings := match b.settings with
      | some st =>
        { notificationEmail := st.notificationEmail.getD "daily"
          theme := st.theme.getD "light"
          defaultTaskStatus := st.defaultTaskStatus.getD "pending" }
      | none => u.settings }

/-- The update validators (`runValidators: true`) on the paths the update sets. -/
def validateProfile (L : Lib) (b : ProfileBody) : List String :=
  (match b.name with
   | some n => userPathError "name" (nameError (jsTrim n))
   | none => []) ++
  (match b.email with
   | some e => userPathError "email" (emailError (normalizeEmail L e))
   | none => [])

/-- The handler of `PUT /api/users/:id`.  The `trim` sanitizer of the chain has already
replaced `req.body.name`; trimming is idempotent, so the handler is given the body as sent.
No `save` hook runs on `findByIdAndUpdate`. -/
def updateUserHandler (L : Lib) (s : Store) (reqUser : UserDoc) (id : ObjectId) (b : ProfileBody) :
    Response × Store :=
  if reqUser._id ≠ id then (forbidden, s)
  else
    match validateProfile L b with
    | e :: es =>
      (errorHandler { statusCode := none, message := "Validation failed: " ++ ", ".intercalate (e :: es) }, s)
    | [] =>
      match s.lookup id with
      | none => (userNotFound, s)
      | some user =>
        let updated := applyProfile L user b
        if s.users.any (fun v => decide (v._id ≠ id ∧ v.email = updated.email)) then
          ({ status := 400, success := false, message := some "Email is already in use." }, s)
        else
          ({ status := 200, success := true, message := some "Profile updated successfully",
             user := some (profileView updated) },
           { users := updateOne id (fun u => applyProfile L u b) s.users })

/-- The route `router.get('/:id', protect, handler)`. -/
def getUserRoute (L : Lib) (env : Env) (s : Store) (req : Request Unit) : Outcome :=
  withUser (protect L env s req.authorization) s fun u => sends (getUserHandler s u req.id)

/-- The route `router.put('/:id', protect, updateUserValidation, handler)`. -/
def updateUserRoute (L : Lib) (env : Env) (s : Store) (req : Request ProfileBody) : Outcome :=
  withUser (protect L env s req.authorization) s fun u =>
    (handleValidationErrors (updateUserValidation L req.body)).andThen s
      (sends (updateUserHandler L s u req.id req.body))

/-- A login request with the credentials of the first sample user. -/
def annLogin : LoginBody := { email := some "ann@example.com", password := some "secret1" }

/-- A login request with the email of the first sample user and a wrong password. -/
def annWrongLogin : LoginBody := { email := some "ann@example.com", password := some "guess99" }

/-- A login request with an email no user holds. -/
def strangerLogin : LoginBody := { email := some "cy@example.com", password := some "guess99" }

/-- The 401 response for a token that does not verify. -/
def tokenFailed : Response := notAuthorized "Not authorized, token failed"

/-- The 401 response for a missing token. -/
def noToken : Response := notAuthorized "Not authorized, no token"

/-- The 401 response for a token whose user is gone. -/
def userGone : Response := notAuthorized "Not authorized, user not found"

/-- The sample store after the first user deleted the account. -/
def storeWithoutAnn : Store := { users := [bob] }

/-- A signup request with a new email. -/
def cySignup : SignupBody :=
  { name := some " Cy ", email := some "cy@example.com", password := some "secret3" }

/-- The user the sample signup creates. -/
def cy : User :=
  { _id := 103, name := "Cy", email := "cy@example.com", password := "saltsecret3", tasks := [],
    settings := defaultSettings, createdAt := 5000, updatedAt := 5001 }

/-- The response to the sample signup. -/
def cyRegistered : Response :=
  { status := 201, success := true, message := some "User registered successfully",
    token := some "token103", user := some (authView 103 "Cy" "cy@example.com") }

/-- Readings of a later request, whose verifier accepts the token of user 103. -/
def laterEnv : Env :=
  { verifyAt := 9000, signAt := 9001, newId := 104, createdAtDefault := 9000,
    updatedAtDefault := 9000, handlerNow := 9000, saveNow := 9001, salt := "salt" }

/-- The sample library with a verifier that also knows the token of user 103. -/
def laterLib : Lib :=
  { sampleLib with
    jwtVerify := fun t now => if t = "token103" then some 103 else sampleLib.jwtVerify t now }

/-- A signup request with a new email and a name of 51 characters. -/
def longNameSignup : SignupBody :=
  { name := some (String.mk (List.replicate 51 'n')), email := some "cy@example.com",
    password := some "secret3" }

/-! ## The API as a whole -/

/-- A request to one of the routes of the API. -/
inductive ApiRequest where
  | signup (b : SignupBody)
  | login (b : LoginBody)
  | getUser (req : Request Unit)
  | updateUser (req : Request ProfileBody)
  | changePassword (req : Request PasswordBody)
  | deleteUser (req : Request Unit)
  | getTasks (req : Request Unit)
  | createTask (req : Request TaskBody)
  | updateTask (req : Request TaskBody)
  | deleteTask (req : Request Unit)

/-- The router: the route each request is dispatched to. -/
def serve (L : Lib) (env : Env) (s : Store) : ApiRequest → Outcome
  | .signup b => signupRoute L env s b
  | .login b => loginRoute L env s b
  | .getUser req => getUserRoute L env s req
  | .updateUser req => updateUserRoute L env s req
  | .changePassword req => changePasswordRoute L env s req
  | .deleteUser req => deleteUserRoute L env s req
  | .getTasks req => getTasksRoute L env s req
  | .createTask req => createTaskRoute L env s req
  | .updateTask req => updateTaskRoute L env s req
  | .deleteTask req => deleteTaskRoute L env s req

/-- The store after a sequence of requests served one at a time, each with its own
environment. -/
def run (L : Lib) : Store → List (Env × ApiRequest) → Store
  | s, [] => s
  | s, (env, q) :: rest => run L (serve L env s q).2 rest

/-- The empty collection. -/
def emptyStore : Store := { users := [] }

/-- The ways a request other than a signup changes the collection. -/
inductive StoreStep (L : Lib) (s : Store) : Store → Prop where
  | same : StoreStep L s s
  | tasks (env : Env) (id : ObjectId) (ts : List Task) : StoreStep L s (s.saveTasks env id ts)
  | profile (id : ObjectId) (b : ProfileBody) (user : User) (hl : s.lookup id = some user)
      (hfree : ∀ v ∈ s.users, v._id ≠ id → v.email ≠ (applyProfile L user b).email) :
      StoreStep L s { users := updateOne id (fun u => applyProfile L u b) s.users }
  | delete (id : ObjectId) : StoreStep L s { users := deleteOne id s.users }

/-- The shape of the collection the unique indexes and the setters maintain: ids are
pairwise distinct, emails are pairwise distinct, and every email is in lower case. -/
def Store.Wf (L : Lib) (s : Store) : Prop :=
  (s.users.map (·._id)).Nodup ∧ (s.users.map (·.email)).Nodup ∧
  ∀ u ∈ s.users, L.toLowerCase u.email = u.email

/-- A signup request whose email is the one of the first sample user in other letter
case. -/
def annAgainSignup : SignupBody :=
  { name := some "Ann B", email := some "Ann@Example.com", password := some "secret4" }

/-- Readings of the first request of the sample session. -/
def env1 : Env :=
  { verifyAt := 1000, signAt := 1001, newId := 7, createdAtDefault := 1000,
    updatedAtDefault := 1000, handlerNow := 1000, saveNow := 1001, salt := "salt" }

/-- Readings of the second request of the sample session. -/
def env2 : Env :=
  { verifyAt := 2000, signAt := 2001, newId := 8, createdAtDefault := 2000,
    updatedAtDefault := 2000, handlerNow := 2000, saveNow := 2001, salt := "salt" }

/-- Readings of the third request of the sample session. -/
def env3 : Env :=
  { verifyAt := 3000, signAt := 3001, newId := 120, createdAtDefault := 3000,
    updatedAtDefault := 3000, handlerNow := 3000, saveNow := 3001, salt := "salt" }

/-- A sample session: two signups, then the first user, holding the token of id 7, asks for
the email of the second in other letter case and adds a task. -/
def sampleSession : List (Env × ApiRequest) :=
  [(env1, .signup { name := some "Ann", email := some "Ann@Example.com", password := some "secret1" }),
   (env2, .signup { name := some "Bob", email := some "bob@example.com", password := some "secret2" }),
   (env3, .updateUser { authorization := some "Bearer token7", id := 7,
                         body := { email := some "BOB@example.com" } }),
   (env3, .createTask { authorization := some "Bearer token7", id := 7,
                         body := { title := some "Buy milk" } })]

/-- A create-task request without an Authorization header and without a title. -/
def anonymousUntitled : Request TaskBody :=
  { authorization := none, id := 7, body := { status := some "done" } }

/-- An update-profile request by the first sample user with a new name. -/
def renameAnn : Request ProfileBody :=
  { authorization := some "Bearer token7", id := 7, body := { name := some "Ann B" } }

/-- A create-task request by the first sample user. -/
def breadCreate : Request TaskBody :=
  { authorization := some "Bearer token7", id := 7, body := { title := some "Buy bread" } }

/-- The body the task form of the dashboard sends when only the title is filled in:
`JSON.stringify` of the trimmed title, the empty description, the empty date and the
preselected status. -/
def formBody : TaskBody :=
  { title := some "Buy bread", description := some "", dueDate := some "", status := some "pending" }

/-- Readings of the fourth request of a session. -/
def env4 : Env :=
  { verifyAt := 4000, signAt := 4001, newId := 121, createdAtDefault := 4000,
    updatedAtDefault := 4000, handlerNow := 4000, saveNow := 4001, salt := "salt" }

/-- A session from the empty collection: a signup, two create-task requests, and an
update-task request for the second task whose body names the `_id` of the first. -/
def twinSession : List (Env × ApiRequest) :=
  [(env1, .signup { name := some "Ann", email := some "ann@example.com", password := some "secret1" }),
   (env3, .createTask { authorization := some "Bearer token7", id := 7,
                         body := { title := some "Buy milk" } }),
   (env4, .createTask { authorization := some "Bearer token7", id := 7,
                         body := { title := some "Write report" } }),
   (laterEnv, .updateTask { authorization := some "Bearer token7", id := 7, taskId := 121,
                             body := { _id := some 120 } })]

/-- An update-profile request with all three settings, as the settings form of the
dashboard sends it. -/
def allSettings : Request ProfileBody :=
  { authorization := some "Bearer token7", id := 7,
    body := { settings := some { notificationEmail := some "weekly", theme := some "dark",
                                 defaultTaskStatus := some "in-progress" } } }

/-- An update-profile request whose settings object has one field only. -/
def oneSetting : Request ProfileBody :=
  { authorization := some "Bearer token7", id := 7,
    body := { settings := some { notificationEmail := some "none" } } }

/-- The first sample user after the rename. -/
def annRenamed : User := { ann with name := "Ann B" }

/-- The store after the rename of the first sample user. -/
def renamedStore : Store := { users := [annRenamed, bob] }

/-- The response to the rename of the first sample user. -/
def renamedResponse : Response :=
  { status := 200, success := true, message := some "Profile updated successfully",
    user := some (profileView annRenamed) }

/-- The constraints of `TaskSchema` on one task: a title that is not empty and has at most
100 UTF-16 units, a description, when there is one, of at most 500, and a status of the
enumeration. -/
def Task.Valid (t : Task) : Prop :=
  t.title ≠ "" ∧ jsLength t.title ≤ 100 ∧ (∀ d, t.description = some d → jsLength d ≤ 500) ∧
  t.status ∈ taskStatuses

/-- Every task of every stored user satisfies the constraints of `TaskSchema`. -/
def Store.TasksValid (s : Store) : Prop :=
  ∀ u ∈ s.users, ∀ t ∈ u.tasks, t.Valid

/-- A session from the empty collection: a signup, then a change-password request of the new
user that gives the password of the signup as the current one. -/
def passwordSession : List (Env × ApiRequest) :=
  [(env1, .signup { name := some "Ann", email := some "ann@example.com", password := some "secret1" }),
   (env3, .changePassword rightCurrent)]

/-- The clock readings of one request. -/
def Env.readings (env : Env) : List Nat :=
  [env.verifyAt, env.signAt, env.createdAtDefault, env.updatedAtDefault, env.handlerNow,
   env.saveNow]

/-- The clock does not run backwards over a sequence of requests served one at a time: no
reading of a request is less than a reading of a request before it. -/
def clockOrdered (trace : List (Env × ApiRequest)) : Prop :=
  trace.Pairwise fun x y => ∀ a ∈ x.1.readings, ∀ b ∈ y.1.readings, a ≤ b

/-- Every task of every stored user satisfies `Q`. -/
def Store.allTasks (s : Store) (Q : Task → Prop) : Prop :=
  ∀ u ∈ s.users, ∀ t ∈ u.tasks, Q t

/-- An update-task request by the user of the session for the second task. -/
def finishReport : Request TaskBody :=
  { authorization := some "Bearer token7", id := 7, taskId := 121,
    body := { status := some "completed" } }

/-- The response to `finishReport` served with the readings of `laterEnv`. -/
def reportDone : Response :=
  { status := 200, success := true, message := some "Task updated successfully",
    task := some { _id := 121, title := "Write report", description := none,
                   status := "completed", dueDate := none, createdAt := 4000,
                   updatedAt := 9000 } }

/-! # Theorems -/

/-! ## Lemmas on the store -/

theorem lookup_id {s : Store} {id : ObjectId} {u : User} (h : s.lookup id = some u) :
    u._id = id := by
  have := List.find?_some h
  simpa using this

theorem findById_eq {s : Store} {id : ObjectId} {u : User} (h : s.lookup id = some u) :
    s.findById id = some u.toDoc := by
  simp [Store.findById, h]

theorem findById_none {s : Store} {id : ObjectId} (h : s.lookup id = none) :
    s.findById id = none := by
  simp [Store.findById, h]

theorem find_updateOne (id : ObjectId) (f : User → User) (hf : ∀ u, (f u)._id = u._id)
    (us : List User) :
    (updateOne id f us).find? (fun u => decide (u._id = id)) =
      (us.find? fun u => decide (u._id = id)).map f := by
  induction us with
  | nil => simp [updateOne]
  | cons u us ih =>
    by_cases h : u._id = id
    · simp [updateOne, h, List.find?, hf]
    · simp [updateOne, h, List.find?, ih]

theorem find_updateOne_ne (id other : ObjectId) (hne : other ≠ id) (f : User → User)
    (hf : ∀ u, (f u)._id = u._id) (us : List User) :
    (updateOne id f us).find? (fun u => decide (u._id = other)) =
      us.find? fun u => decide (u._id = other) := by
  induction us with
  | nil => simp [updateOne]
  | cons u us ih =>
    by_cases h : u._id = id
    · have h2 : ¬ u._id = other := fun e => hne (e.symm.trans h)
      have h3 : ¬ (f u)._id = other := by rw [hf]; exact h2
      simp only [updateOne, if_pos h, List.find?_cons, decide_eq_false h2, decide_eq_false h3]
    · by_cases h3 : u._id = other
      · simp only [updateOne, if_neg h, List.find?_cons, decide_eq_true h3]
      · simp only [updateOne, if_neg h, List.find?_cons, decide_eq_false h3, ih]

theorem lookup_saveTasks (s : Store) (env : Env) (id : ObjectId) (ts : List Task) {u : User}
    (h : s.lookup id = some u) :
    (s.saveTasks env id ts).lookup id = some { u with tasks := ts, updatedAt := env.saveNow } := by
  have key := find_updateOne id
    (fun u : User => { u with tasks := ts, updatedAt := env.saveNow }) (fun _ => rfl) s.users
  unfold Store.lookup at h
  unfold Store.lookup Store.saveTasks
  rw [key, h]
  rfl

theorem tasksOf_saveTasks (s : Store) (env : Env) (id : ObjectId) (ts : List Task) {u : User}
    (h : s.lookup id = some u) : (s.saveTasks env id ts).tasksOf id = ts := by
  unfold Store.tasksOf
  rw [lookup_saveTasks s env id ts h]

theorem tasksOf_eq {s : Store} {id : ObjectId} {u : User} (h : s.lookup id = some u) :
    s.tasksOf id = u.tasks := by
  simp [Store.tasksOf, h]

/-! ## Lemmas on the middleware -/

theorem verifyToken_falsy (L : Lib) (token : Option String) (now : Nat)
    (h : tokenFalsy token = true) : verifyToken L token now = none := by
  cases token with
  | none => rfl
  | some t =>
    have ht : t = "" := by simpa [tokenFalsy] using h
    simp [verifyToken, ht]

/-- The two ways `protect` ends: one 401 response and no `next`, or `next` once, nothing
sent and a stored user in `req.user`. -/
theorem protect_cases (L : Lib) (env : Env) (s : Store) (authorization : Option String) :
    (∃ m, protect L env s authorization = { sent := [notAuthorized m], nextCalls := 0 }) ∨
    (∃ id u, s.lookup id = some u ∧
      protect L env s authorization = { sent := [], nextCalls := 1, reqUser := some u.toDoc }) := by
  unfold protect
  cases authorization with
  | none => exact Or.inl ⟨_, rfl⟩
  | some header =>
    by_cases hb : header ≠ "" ∧ jsStartsWith header "Bearer" = true
    · simp only [if_pos hb]
      cases hv : verifyToken L ((jsSplitSpace header)[1]?) env.verifyAt with
      | none => exact Or.inl ⟨_, rfl⟩
      | some id =>
        cases hl : s.lookup id with
        | none => simp only [findById_none hl]; exact Or.inl ⟨_, rfl⟩
        | some u =>
          simp only [findById_eq hl]
          cases hf : tokenFalsy ((jsSplitSpace header)[1]?) with
          | true => rw [verifyToken_falsy L _ _ hf] at hv; cases hv
          | false => exact Or.inr ⟨id, u, hl, by simp⟩
    · simp only [if_neg hb]; exact Or.inl ⟨_, rfl⟩

theorem withUser_authenticated {L : Lib} {env : Env} {s : Store} {a : Option String}
    {id : ObjectId} (h : authenticatedAs L env s a id) (handler : UserDoc → Outcome) :
    ∃ u, s.lookup id = some u ∧ withUser (protect L env s a) s handler = handler u.toDoc := by
  obtain ⟨u, hu, hp⟩ := h
  exact ⟨u, hu, by rw [hp]; rfl⟩

theorem withUser_protect_cases (L : Lib) (env : Env) (s : Store) (a : Option String)
    (handler : UserDoc → Outcome) :
    (∃ m, withUser (protect L env s a) s handler = (some (notAuthorized m), s)) ∨
    (∃ id u, s.lookup id = some u ∧ authenticatedAs L env s a id ∧
      withUser (protect L env s a) s handler = handler u.toDoc) := by
  rcases protect_cases L env s a with ⟨m, hm⟩ | ⟨id, u, hu, hp⟩
  · exact Or.inl ⟨m, by rw [hm]; rfl⟩
  · exact Or.inr ⟨id, u, hu, ⟨u, hu, hp⟩, by rw [hp]; rfl⟩

theorem andThen_validation (errors : List ValidationError) (s : Store) (rest : Outcome) :
    (handleValidationErrors errors).andThen s rest =
      if errors = [] then rest else (some (validationFailedResponse errors), s) := by
  cases errors with
  | nil => rfl
  | cons e es => rfl

theorem createTaskHandler_created {L : Lib} {env : Env} {s s' : Store} {u : UserDoc}
    {id : ObjectId} {b : TaskBody} {r : Response}
    (h : createTaskHandler L env s u id b = (r, s')) (hok : r.status = 201) :
    u._id = id ∧ ∃ user, s.lookup id = some user ∧
      r.task = some (newTask L env b) ∧
      s' = s.saveTasks env id (user.tasks ++ [newTask L env b]) := by
  unfold createTaskHandler at h
  by_cases hid : u._id = id
  · refine ⟨hid, ?_⟩
    simp only [hid, ne_eq, not_true_eq_false, if_false] at h
    cases hl : s.lookup id with
    | none =>
      rw [findById_none hl] at h
      simp only [Prod.mk.injEq] at h
      rw [← h.1] at hok; cases hok
    | some user =>
      rw [findById_eq hl] at h
      simp only at h
      cases hv : validateNewTask user.toDoc.tasks.length (newTask L env b) with
      | nil =>
        rw [hv] at h
        simp only [Prod.mk.injEq] at h
        refine ⟨user, rfl, ?_, h.2.symm⟩
        rw [← h.1]
        simp [User.toDoc]
      | cons e es =>
        rw [hv] at h
        simp only [Prod.mk.injEq] at h
        rw [← h.1] at hok
        simp [errorHandler, validationFailed] at hok
  · simp only [ne_eq, hid, not_false_eq_true, if_true, Prod.mk.injEq] at h
    rw [← h.1] at hok; cases hok

theorem getTasksRoute_authenticated {L : Lib} {env : Env} {s : Store} {req : Request Unit}
    {id : ObjectId} (hauth : authenticatedAs L env s req.authorization id) (hid : req.id = id) :
    getTasksRoute L env s req = (some (tasksResponse (s.tasksOf id)), s) := by
  obtain ⟨u, hu, hp⟩ := hauth
  have hi := lookup_id hu
  unfold getTasksRoute
  rw [hp]
  simp only [withUser, Effects.andThen, sends, getTasksHandler, hid, User.toDoc, hi, ne_eq,
    not_true_eq_false, if_false, findById_eq hu, tasksOf_eq hu, tasksResponse]

/-- C11 (amended): when a create-task request gets 201, it passed validation, the response
carries the new task, and list-tasks for the same user then returns the previous
sequence followed by that one task.  The task has the generated id, the submitted title
with leading and trailing white space removed, the submitted description, the date the
submitted dueDate parses to, and the submitted status or `pending`. -/
theorem createTask_then_list (L : Lib) (env env2 : Env) (s s' : Store) (req : Request TaskBody)
    (lreq : Request Unit) (r : Response)
    (hcreate : createTaskRoute L env s req = (some r, s')) (hok : r.status = 201)
    (hauth : authenticatedAs L env2 s' lreq.authorization req.id) (hid : lreq.id = req.id) :
    ∃ t : Task,
      createTaskValidation L req.body = [] ∧
      r.task = some t ∧
      getTasksRoute L env2 s' lreq = (some (tasksResponse (s.tasksOf req.id ++ [t])), s') ∧
      t._id = env.newId ∧
      req.body.title.map jsTrim = some t.title ∧
      t.description = req.body.description ∧
      t.dueDate = req.body.dueDate.bind L.toDate ∧
      t.status = req.body.status.getD "pending" := by
  unfold createTaskRoute at hcreate
  rcases withUser_protect_cases L env s req.authorization _ with ⟨m, hm⟩ | ⟨id, u, hu, -, hp⟩
  · rw [hm] at hcreate
    simp only [Prod.mk.injEq, Option.some.injEq] at hcreate
    rw [← hcreate.1] at hok; cases hok
  · rw [hp, andThen_validation] at hcreate
    by_cases hv : createTaskValidation L req.body = []
    · rw [if_pos hv] at hcreate
      simp only [sends, Prod.mk.injEq, Option.some.injEq] at hcreate
      have hh : createTaskHandler L env s u.toDoc req.id req.body = (r, s') :=
        Prod.ext hcreate.1 hcreate.2
      obtain ⟨-, user, hl, htask, hs'⟩ := createTaskHandler_created hh hok
      refine ⟨newTask L env req.body, hv, htask, ?_, rfl, ?_, rfl, ?_, ?_⟩
      · rw [getTasksRoute_authenticated hauth hid, hs', tasksOf_saveTasks s env req.id _ hl,
          tasksOf_eq hl]
      · have hne : fieldText req.body.title ≠ "" := by
          by_contra hc
          simp [createTaskValidation, check, hc] at hv
        cases ht : req.body.title with
        | none => simp [fieldText, ht] at hne
        | some x => simp [newTask, ht]
      · cases hd : req.body.dueDate <;> simp [newTask, hd]
      · cases hd : req.body.status <;> simp [newTask, hd]
    · rw [if_neg hv] at hcreate
      simp only [Prod.mk.injEq, Option.some.injEq] at hcreate
      rw [← hcreate.1] at hok; cases hok

theorem createTask_then_list_witness :
    ∃ t : Task,
      createTaskValidation sampleLib paddedCreate.body = [] ∧
      eggsCreated.task = some t ∧
      getTasksRoute sampleLib sampleEnv storeWithEggs listRequest =
        (some (tasksResponse (sampleStore.tasksOf 7 ++ [t])), storeWithEggs) ∧
      t._id = 103 ∧
      paddedCreate.body.title.map jsTrim = some t.title ∧
      t.description = none ∧
      t.dueDate = some 1893456000000 ∧
      t.status = "pending" :=
  createTask_then_list sampleLib sampleEnv sampleEnv sampleStore storeWithEggs paddedCreate
    listRequest eggsCreated (by decide) (by decide)
    ⟨{ ann with tasks := [milk, report, eggs], updatedAt := 5001 }, by decide, by decide⟩
    (by decide)

/-- C11 as stated fails: a create-task request whose title has surrounding white space
passes validation and gets 201, and the created task does not carry the submitted title. -/
theorem createTask_title_not_as_submitted :
    createTaskValidation sampleLib paddedCreate.body = [] ∧
    (createTaskRoute sampleLib sampleEnv sampleStore paddedCreate).1.map (·.status) = some 201 ∧
    paddedCreate.body.title = some "  Buy eggs " ∧
    ((createTaskRoute sampleLib sampleEnv sampleStore paddedCreate).1.bind (·.task)).map (·.title)
      = some "Buy eggs" ∧
    (((getTasksRoute sampleLib sampleEnv
        (createTaskRoute sampleLib sampleEnv sampleStore paddedCreate).2 listRequest).1.bind
          (·.tasks)).bind (·.getLast?)).map (·.title) = some "Buy eggs" := by
  decide

theorem find_split (taskId : ObjectId) (ts : List Task) {old : Task}
    (h : ts.find? (fun t => decide (t._id = taskId)) = some old) (new : Task) :
    ∃ pre post, ts = pre ++ old :: post ∧ (∀ t ∈ pre, t._id ≠ taskId) ∧ old._id = taskId ∧
      replaceTask taskId new ts = pre ++ new :: post := by
  induction ts with
  | nil => simp at h
  | cons t ts ih =>
    by_cases ht : t._id = taskId
    · have e : t = old := by
        simpa only [List.find?_cons, decide_eq_true ht, Option.some.injEq] using h
      subst e
      exact ⟨[], ts, rfl, by simp, ht, by simp [replaceTask, ht]⟩
    · simp only [List.find?_cons, decide_eq_false ht] at h
      obtain ⟨pre, post, h1, h2, h3, h4⟩ := ih h
      refine ⟨t :: pre, post, by simp [h1], ?_, h3, by simp [replaceTask, ht, h4]⟩
      intro x hx
      rcases List.mem_cons.1 hx with rfl | hx
      · exact ht
      · exact h2 x hx

theorem updateTaskHandler_updated {L : Lib} {env : Env} {s s' : Store} {u : UserDoc}
    {id taskId : ObjectId} {b : TaskBody} {r : Response}
    (h : updateTaskHandler L env s u id taskId b = (r, s')) (hok : r.status = 200) :
    ∃ user old, s.lookup id = some user ∧
      user.tasks.find? (fun t => decide (t._id = taskId)) = some old ∧
      r.task = some (assignTask L env old b) ∧
      s' = s.saveTasks env id (replaceTask taskId (assignTask L env old b) user.tasks) := by
  unfold updateTaskHandler at h
  by_cases hid : u._id = id
  · simp only [hid, ne_eq, not_true_eq_false, if_false] at h
    cases hl : s.lookup id with
    | none =>
      rw [findById_none hl] at h
      simp only [Prod.mk.injEq] at h
      rw [← h.1] at hok; cases hok
    | some user =>
      rw [findById_eq hl] at h
      simp only [checkTaskOwnership] at h
      have ht : user.toDoc.tasks = user.tasks := rfl
      rw [ht] at h
      cases hf : user.tasks.find? (fun t => decide (t._id = taskId)) with
      | none =>
        rw [hf] at h
        simp only [Prod.mk.injEq] at h
        rw [← h.1] at hok; cases hok
      | some old =>
        rw [hf] at h
        simp only at h
        generalize hv : validateModifiedTask _ old (assignTask L env old b) = v at h
        cases v with
        | nil =>
          simp only [Prod.mk.injEq] at h
          refine ⟨user, old, rfl, hf, ?_, h.2.symm⟩
          rw [← h.1]
        | cons e es =>
          simp only [Prod.mk.injEq] at h
          rw [← h.1] at hok
          simp [errorHandler, validationFailed] at hok
  · simp only [ne_eq, hid, not_false_eq_true, if_true, Prod.mk.injEq] at h
    rw [← h.1] at hok; cases hok

/-- What a 200 from the update-task route means: the first task with the path id was
replaced in place by the result of the assignments, and the response carries it. -/
theorem updateTaskRoute_success {L : Lib} {env : Env} {s s' : Store} {req : Request TaskBody}
    {r : Response} (h : updateTaskRoute L env s req = (some r, s')) (hok : r.status = 200) :
    ∃ (pre post : List Task) (old : Task),
      s.tasksOf req.id = pre ++ old :: post ∧ (∀ t ∈ pre, t._id ≠ req.taskId) ∧
      old._id = req.taskId ∧
      s'.tasksOf req.id = pre ++ assignTask L env old req.body :: post ∧
      r.task = some (assignTask L env old req.body) := by
  unfold updateTaskRoute at h
  rcases withUser_protect_cases L env s req.authorization _ with ⟨m, hm⟩ | ⟨id, u, hu, -, hp⟩
  · rw [hm] at h
    simp only [Prod.mk.injEq, Option.some.injEq] at h
    rw [← h.1] at hok; cases hok
  · rw [hp, andThen_validation] at h
    by_cases hv : updateTaskValidation L req.body = []
    · rw [if_pos hv] at h
      simp only [sends, Prod.mk.injEq, Option.some.injEq] at h
      have hh : updateTaskHandler L env s u.toDoc req.id req.taskId req.body = (r, s') :=
        Prod.ext h.1 h.2
      obtain ⟨user, old, hl, hf, htask, hs'⟩ := updateTaskHandler_updated hh hok
      obtain ⟨pre, post, h1, h2, h3, h4⟩ := find_split req.taskId user.tasks hf
        (assignTask L env old req.body)
      refine ⟨pre, post, old, ?_, h2, h3, ?_, htask⟩
      · rw [tasksOf_eq hl, h1]
      · rw [hs', tasksOf_saveTasks s env req.id _ hl, h4]
    · rw [if_neg hv] at h
      simp only [Prod.mk.injEq, Option.some.injEq] at h
      rw [← h.1] at hok; cases hok

/-- C12 (amended): after a successful update-task request the user's list is the previous
list with the addressed task replaced in place, every other task unchanged.  In the
replaced task every field but `updatedAt` that the body does not provide keeps its prior
value; a provided description or status takes the submitted value, a provided title the
submitted value with leading and trailing white space removed, a provided dueDate the date
the submitted string parses to. -/
theorem updateTask_merges_provided_fields (L : Lib) (env : Env) (s s' : Store)
    (req : Request TaskBody) (r : Response)
    (hupdate : updateTaskRoute L env s req = (some r, s')) (hok : r.status = 200) :
    ∃ (pre post : List Task) (old new : Task),
      s.tasksOf req.id = pre ++ old :: post ∧ (∀ t ∈ pre, t._id ≠ req.taskId) ∧
      old._id = req.taskId ∧
      s'.tasksOf req.id = pre ++ new :: post ∧
      r.task = some new ∧
      new.title = (req.body.title.map jsTrim).getD old.title ∧
      new.description = (req.body.description.map some).getD old.description ∧
      new.status = req.body.status.getD old.status ∧
      new.dueDate = (req.body.dueDate.map L.toDate).getD old.dueDate ∧
      new._id = req.body._id.getD old._id ∧
      new.createdAt = req.body.createdAt.getD old.createdAt := by
  obtain ⟨pre, post, old, h1, h2, h3, h4, h5⟩ := updateTaskRoute_success hupdate hok
  refine ⟨pre, post, old, assignTask L env old req.body, h1, h2, h3, h4, h5, ?_, ?_, ?_, ?_, ?_, ?_⟩
  · cases h : req.body.title <;> simp [assignTask, h]
  · cases h : req.body.description <;> simp [assignTask, h]
  · cases h : req.body.status <;> simp [assignTask, h]
  · cases h : req.body.dueDate <;> simp [assignTask, h]
  · cases h : req.body._id <;> simp [assignTask, h]
  · cases h : req.body.createdAt <;> simp [assignTask, h]

/-- Witness of C12: the sample update of the second task. -/
theorem updateTask_merges_provided_fields_witness :
    ∃ (pre post : List Task) (old new : Task),
      sampleStore.tasksOf retitleReport.id = pre ++ old :: post ∧
      (∀ t ∈ pre, t._id ≠ retitleReport.taskId) ∧
      old._id = retitleReport.taskId ∧
      storeRetitled.tasksOf retitleReport.id = pre ++ new :: post ∧
      retitledResponse.task = some new ∧
      new.title = (retitleReport.body.title.map jsTrim).getD old.title ∧
      new.description = (retitleReport.body.description.map some).getD old.description ∧
      new.status = retitleReport.body.status.getD old.status ∧
      new.dueDate = (retitleReport.body.dueDate.map sampleLib.toDate).getD old.dueDate ∧
      new._id = retitleReport.body._id.getD old._id ∧
      new.createdAt = retitleReport.body.createdAt.getD old.createdAt :=
  updateTask_merges_provided_fields sampleLib sampleEnv sampleStore storeRetitled retitleReport
    retitledResponse (by decide) (by decide)

/-- C12 as stated fails: a successful update whose title has surrounding white space
stores a title other than the submitted one, and `updatedAt`, which the body does not
provide, does not keep its prior value. -/
theorem updateTask_title_not_as_submitted :
    updateTaskRoute sampleLib sampleEnv sampleStore retitleReport =
      (some retitledResponse, storeRetitled) ∧
    retitledResponse.status = 200 ∧
    retitleReport.body.title = some "  Write the report " ∧
    (storeRetitled.tasksOf 7).map (·.title) = ["Buy milk", "Write the report"] ∧
    retitleReport.body.updatedAt = none ∧
    (sampleStore.tasksOf 7).map (·.updatedAt) = [1000, 3000] ∧
    (storeRetitled.tasksOf 7).map (·.updatedAt) = [1000, 5000] := by
  decide

/-- C13 as stated fails: a task created and then updated within one clock millisecond has
the same `updatedAt` before and after the successful update. -/
theorem updateTask_updatedAt_not_increased :
    createTaskRoute sampleLib tickEnv sampleStore paddedCreate =
      (some eggsCreated, storeWithEggsTick) ∧
    (storeWithEggsTick.tasksOf 7).map (·.updatedAt) = [1000, 3000, 5000] ∧
    (updateTaskRoute sampleLib tickEnv storeWithEggsTick describeEggs).1.map (·.status)
      = some 200 ∧
    ((updateTaskRoute sampleLib tickEnv storeWithEggsTick describeEggs).2.tasksOf 7).map
      (·.updatedAt) = [1000, 3000, 5000] ∧
    ((updateTaskRoute sampleLib tickEnv storeWithEggsTick describeEggs).2.tasksOf 7).map
      (·.description) = [none, some "quarterly", some "a dozen"] := by
  decide

theorem find_none_of_absent (taskId : ObjectId) (ts : List Task)
    (h : ∀ t ∈ ts, t._id ≠ taskId) : ts.find? (fun t => decide (t._id = taskId)) = none := by
  rw [List.find?_eq_none]
  intro t ht
  simpa using h t ht

theorem find_some_of_present (taskId : ObjectId) (ts : List Task)
    (h : ∃ t ∈ ts, t._id = taskId) :
    ∃ old, ts.find? (fun t => decide (t._id = taskId)) = some old ∧ old._id = taskId := by
  cases hf : ts.find? (fun t => decide (t._id = taskId)) with
  | none =>
    rw [List.find?_eq_none] at hf
    obtain ⟨t, ht, hid⟩ := h
    exact absurd hid (by simpa using hf t ht)
  | some old =>
    exact ⟨old, rfl, by simpa using List.find?_some hf⟩

theorem filter_of_nodup (taskId : ObjectId) (pre post : List Task) (t : Task)
    (hid : t._id = taskId) (hnd : ((pre ++ t :: post).map (·._id)).Nodup) :
    (pre ++ t :: post).filter (fun x => decide (x._id ≠ taskId)) = pre ++ post := by
  rw [List.map_append, List.map_cons, List.nodup_append] at hnd
  obtain ⟨-, hpost, hdisj⟩ := hnd
  have hpre : ∀ x ∈ pre, x._id ≠ taskId := by
    intro x hx e
    exact hdisj (List.mem_map_of_mem (·._id) hx) (by rw [e, ← hid]; exact List.mem_cons_self _ _)
  have hpost2 : ∀ x ∈ post, x._id ≠ taskId := by
    intro x hx e
    rw [List.nodup_cons] at hpost
    exact hpost.1 (by rw [hid, ← e]; exact List.mem_map_of_mem (·._id) hx)
  have e1 : pre.filter (fun x => decide (x._id ≠ taskId)) = pre :=
    List.filter_eq_self.2 fun x hx => by simpa using hpre x hx
  have e2 : post.filter (fun x => decide (x._id ≠ taskId)) = post :=
    List.filter_eq_self.2 fun x hx => by simpa using hpost2 x hx
  rw [List.filter_append, List.filter_cons, e1, e2]
  simp [hid]

theorem deleteTaskRoute_authenticated {L : Lib} {env : Env} {s : Store} {req : Request Unit}
    (hauth : authenticatedAs L env s req.authorization req.id) :
    deleteTaskRoute L env s req =
      match (s.tasksOf req.id).find? (fun t => decide (t._id = req.taskId)) with
      | none => (some taskNotFound, s)
      | some _ =>
        (some taskDeleted,
          s.saveTasks env req.id
            ((s.tasksOf req.id).filter fun t => decide (t._id ≠ req.taskId))) := by
  obtain ⟨u, hu, hp⟩ := hauth
  have hi := lookup_id hu
  unfold deleteTaskRoute
  rw [hp]
  simp only [withUser, Effects.andThen, sends, deleteTaskHandler, User.toDoc, hi, ne_eq,
    not_true_eq_false, if_false, findById_eq hu, tasksOf_eq hu, checkTaskOwnership]
  cases hf : u.tasks.find? (fun t => decide (t._id = req.taskId)) with
  | none => rfl
  | some old =>
    have ho : old._id = req.taskId := by simpa using List.find?_some hf
    simp only [ho, taskDeleted]

/-- C14: an authenticated delete-task request by user U for a task id that is not in U's
task sequence is answered 404, and the store, U's task list included, is unchanged. -/
theorem deleteTask_absent_is_not_found (L : Lib) (env : Env) (s : Store) (req : Request Unit)
    (hauth : authenticatedAs L env s req.authorization req.id)
    (habsent : ∀ t ∈ s.tasksOf req.id, t._id ≠ req.taskId) :
    deleteTaskRoute L env s req = (some taskNotFound, s) ∧ taskNotFound.status = 404 := by
  rw [deleteTaskRoute_authenticated hauth, find_none_of_absent _ _ habsent]
  exact ⟨rfl, rfl⟩

/-- What the delete-task route does for an id present in the list of the authenticated
owner: the answer is 200 and the list afterwards is the previous one without the tasks
carrying that id, the others unchanged and in order.  Only when the ids of the list are
pairwise distinct, which the update-task route does not maintain, is that the previous list
with exactly one task removed. -/
theorem deleteTask_present_removes (L : Lib) (env : Env) (s : Store) (req : Request Unit)
    (hauth : authenticatedAs L env s req.authorization req.id)
    (hpresent : ∃ t ∈ s.tasksOf req.id, t._id = req.taskId) :
    ∃ s', deleteTaskRoute L env s req = (some taskDeleted, s') ∧ taskDeleted.status = 200 ∧
      s'.tasksOf req.id = (s.tasksOf req.id).filter (fun t => decide (t._id ≠ req.taskId)) ∧
      (((s.tasksOf req.id).map (·._id)).Nodup →
        ∃ pre t post, s.tasksOf req.id = pre ++ t :: post ∧ t._id = req.taskId ∧
          s'.tasksOf req.id = pre ++ post) := by
  obtain ⟨old, hf, -⟩ := find_some_of_present _ _ hpresent
  obtain ⟨u, hu, hp⟩ := hauth
  refine ⟨_, by rw [deleteTaskRoute_authenticated ⟨u, hu, hp⟩, hf], rfl, ?_, ?_⟩
  · rw [tasksOf_saveTasks s env req.id _ hu]
  · intro hnd
    obtain ⟨pre, post, h1, -, h3, -⟩ := find_split req.taskId _ hf old
    refine ⟨pre, old, post, h1, h3, ?_⟩
    rw [tasksOf_saveTasks s env req.id _ hu, h1]
    rw [h1] at hnd
    exact filter_of_nodup req.taskId pre post old h3 hnd

/-- Witness of C14: the sample user deletes a task id that is not in the list. -/
theorem deleteTask_absent_is_not_found_witness :
    deleteTaskRoute sampleLib sampleEnv sampleStore deleteUnknown = (some taskNotFound, sampleStore) ∧
    taskNotFound.status = 404 :=
  deleteTask_absent_is_not_found sampleLib sampleEnv sampleStore deleteUnknown
    ⟨ann, by decide, by decide⟩ (by decide)

/-- The sample user deletes the first task of a list with distinct ids; the second remains. -/
theorem deleteTask_present_removes_witness :
    ∃ s', deleteTaskRoute sampleLib sampleEnv sampleStore deleteMilk = (some taskDeleted, s') ∧
      taskDeleted.status = 200 ∧
      s'.tasksOf deleteMilk.id =
        (sampleStore.tasksOf deleteMilk.id).filter (fun t => decide (t._id ≠ deleteMilk.taskId)) ∧
      (((sampleStore.tasksOf deleteMilk.id).map (·._id)).Nodup →
        ∃ pre t post, sampleStore.tasksOf deleteMilk.id = pre ++ t :: post ∧
          t._id = deleteMilk.taskId ∧ s'.tasksOf deleteMilk.id = pre ++ post) :=
  deleteTask_present_removes sampleLib sampleEnv sampleStore deleteMilk
    ⟨ann, by decide, by decide⟩ ⟨milk, by decide, by decide⟩

/-- C15 (the code at a failing input): after a successful update whose body names the `_id`
of another task, the list holds two tasks with one id, and a delete-task request for that
id is answered 200 and removes both, not exactly one.  The same happens in a session from
the empty collection: a signup, two create-task requests, such an update, and the delete
leaves the user without tasks. -/
theorem deleteTask_removes_more_than_one :
    updateTaskRoute sampleLib sampleEnv sampleStore reidReport =
      (some { status := 200, success := true, message := some "Task updated successfully",
              task := some { report with _id := 101, updatedAt := 5000 } }, storeTwins) ∧
    (storeTwins.tasksOf 7).map (fun t => (t._id, t.title)) =
      [(101, "Buy milk"), (101, "Write report")] ∧
    (deleteTaskRoute sampleLib sampleEnv storeTwins deleteMilk).1 = some taskDeleted ∧
    (deleteTaskRoute sampleLib sampleEnv storeTwins deleteMilk).2.tasksOf 7 = [] ∧
    ((run sampleLib emptyStore twinSession).tasksOf 7).map (fun t => (t._id, t.title)) =
      [(120, "Buy milk"), (120, "Write report")] ∧
    (deleteTaskRoute sampleLib laterEnv (run sampleLib emptyStore twinSession)
      { authorization := some "Bearer token7", id := 7, taskId := 120, body := () }).1 =
      some taskDeleted ∧
    taskDeleted.status = 200 ∧
    (deleteTaskRoute sampleLib laterEnv (run sampleLib emptyStore twinSession)
      { authorization := some "Bearer token7", id := 7, taskId := 120, body := () }).2.tasksOf 7
      = [] := by
  decide

theorem lookup_split (id : ObjectId) (us : List User) {u : User}
    (h : us.find? (fun v => decide (v._id = id)) = some u) :
    ∃ pre post, us = pre ++ u :: post ∧ (∀ v ∈ pre, v._id ≠ id) ∧ u._id = id ∧
      deleteOne id us = pre ++ post := by
  induction us with
  | nil => simp at h
  | cons v vs ih =>
    by_cases hv : v._id = id
    · have e : v = u := by
        simpa only [List.find?_cons, decide_eq_true hv, Option.some.injEq] using h
      subst e
      exact ⟨[], vs, rfl, by simp, hv, by simp [deleteOne, hv]⟩
    · simp only [List.find?_cons, decide_eq_false hv] at h
      obtain ⟨pre, post, h1, h2, h3, h4⟩ := ih h
      refine ⟨v :: pre, post, by simp [h1], ?_, h3, by simp [deleteOne, hv, h4]⟩
      intro x hx
      rcases List.mem_cons.1 hx with rfl | hx
      · exact hv
      · exact h2 x hx

/-- C18: an authenticated delete-account request by the owner is answered 200; the owner's
record, with the tasks embedded in it, is taken out of the collection and every other
record stays as it was, in place.  With ids unique in the collection, no user with that id
remains. -/
theorem deleteUser_removes_only_owner (L : Lib) (env : Env) (s : Store) (req : Request Unit)
    (hauth : authenticatedAs L env s req.authorization req.id) :
    ∃ (pre post : List User) (u : User),
      s.users = pre ++ u :: post ∧ u._id = req.id ∧ (∀ v ∈ pre, v._id ≠ req.id) ∧
      deleteUserRoute L env s req = (some accountDeleted, { users := pre ++ post }) ∧
      accountDeleted.status = 200 ∧
      ((s.users.map (·._id)).Nodup → ({ users := pre ++ post } : Store).lookup req.id = none) := by
  obtain ⟨u, hu, hp⟩ := hauth
  have hi := lookup_id hu
  obtain ⟨pre, post, h1, h2, h3, h4⟩ := lookup_split req.id s.users hu
  refine ⟨pre, post, u, h1, h3, h2, ?_, rfl, ?_⟩
  · unfold deleteUserRoute
    rw [hp]
    simp only [withUser, Effects.andThen, sends, deleteUserHandler, User.toDoc, hi, ne_eq,
      not_true_eq_false, if_false, hu, h4, accountDeleted]
  · intro hnd
    rw [h1, List.map_append, List.map_cons, List.nodup_append] at hnd
    obtain ⟨-, hpost, hdisj⟩ := hnd
    unfold Store.lookup
    rw [List.find?_eq_none]
    intro v hv
    simp only [decide_eq_true_eq]
    rcases List.mem_append.1 hv with hv | hv
    · exact h2 v hv
    · intro e
      rw [List.nodup_cons] at hpost
      exact hpost.1 (by rw [h3, ← e]; exact List.mem_map_of_mem (·._id) hv)

/-- Witness of C18: the first sample user deletes the account; the second user remains. -/
theorem deleteUser_removes_only_owner_witness :
    ∃ (pre post : List User) (u : User),
      sampleStore.users = pre ++ u :: post ∧ u._id = deleteAnn.id ∧
      (∀ v ∈ pre, v._id ≠ deleteAnn.id) ∧
      deleteUserRoute sampleLib sampleEnv sampleStore deleteAnn =
        (some accountDeleted, { users := pre ++ post }) ∧
      accountDeleted.status = 200 ∧
      ((sampleStore.users.map (·._id)).Nodup →
        ({ users := pre ++ post } : Store).lookup deleteAnn.id = none) :=
  deleteUser_removes_only_owner sampleLib sampleEnv sampleStore deleteAnn
    ⟨ann, by decide, by decide⟩

theorem withUser_pass (d : UserDoc) (s : Store) (handler : UserDoc → Outcome) :
    withUser { sent := [], nextCalls := 1, reqUser := some d } s handler = handler d := rfl

/-- C19: when the chains report at least one violation, `handleValidationErrors` sends one
400 response with `success` false and one field-message pair per violation, in order,
and does not call `next`, so whatever follows it in the route does not run and the store is
unchanged; when they report none, it sends nothing and calls `next` once, and the rest of
the route runs.  So it is in the six validated routes: signup and login, and, once
`protect` has accepted the caller, create-task, update-task, change-password and
update-profile. -/
theorem handleValidationErrors_rejects_or_continues (errors : List ValidationError) (s : Store)
    (rest : Outcome) :
    (errors ≠ [] →
      handleValidationErrors errors =
        { sent := [validationFailedResponse errors], nextCalls := 0 } ∧
      (handleValidationErrors errors).andThen s rest = (some (validationFailedResponse errors), s)) ∧
    (errors = [] →
      handleValidationErrors errors = { sent := [], nextCalls := 1 } ∧
      (handleValidationErrors errors).andThen s rest = rest) ∧
    (validationFailedResponse errors).status = 400 ∧
    (validationFailedResponse errors).success = false ∧
    (validationFailedResponse errors).errors = some (errors.map fun err => (err.param, err.msg)) ∧
    (∀ (L : Lib) (env : Env) (req : Request TaskBody),
      authenticatedAs L env s req.authorization req.id →
      (createTaskValidation L req.body ≠ [] →
        createTaskRoute L env s req =
          (some (validationFailedResponse (createTaskValidation L req.body)), s)) ∧
      (updateTaskValidation L req.body ≠ [] →
        updateTaskRoute L env s req =
          (some (validationFailedResponse (updateTaskValidation L req.body)), s))) ∧
    (∀ (L : Lib) (env : Env) (req : Request PasswordBody),
      authenticatedAs L env s req.authorization req.id →
      changePasswordValidation req.body ≠ [] →
      changePasswordRoute L env s req =
        (some (validationFailedResponse (changePasswordValidation req.body)), s)) ∧
    (∀ (L : Lib) (env : Env) (req : Request ProfileBody),
      authenticatedAs L env s req.authorization req.id →
      updateUserValidation L req.body ≠ [] →
      updateUserRoute L env s req =
        (some (validationFailedResponse (updateUserValidation L req.body)), s)) ∧
    (∀ (L : Lib) (env : Env) (b : SignupBody), registerValidation L b ≠ [] →
      signupRoute L env s b = (some (validationFailedResponse (registerValidation L b)), s)) ∧
    (∀ (L : Lib) (env : Env) (b : LoginBody), loginValidation L b ≠ [] →
      loginRoute L env s b = (some (validationFailedResponse (loginValidation L b)), s)) := by
  refine ⟨?_, ?_, rfl, rfl, rfl, ?_, ?_, ?_, ?_, ?_⟩
  · intro h
    cases errors with
    | nil => exact absurd rfl h
    | cons e es => exact ⟨rfl, rfl⟩
  · intro h
    subst h
    exact ⟨rfl, rfl⟩
  · intro L env req hauth
    obtain ⟨u, -, hp⟩ := hauth
    constructor
    · intro hv
      unfold createTaskRoute
      rw [hp, withUser_pass, andThen_validation, if_neg hv]
    · intro hv
      unfold updateTaskRoute
      rw [hp, withUser_pass, andThen_validation, if_neg hv]
  · intro L env req hauth hv
    obtain ⟨u, -, hp⟩ := hauth
    unfold changePasswordRoute
    rw [hp, withUser_pass, andThen_validation, if_neg hv]
  · intro L env req hauth hv
    obtain ⟨u, -, hp⟩ := hauth
    unfold updateUserRoute
    rw [hp, withUser_pass, andThen_validation, if_neg hv]
  · intro L env b hv
    unfold signupRoute
    rw [andThen_validation, if_neg hv]
  · intro L env b hv
    unfold loginRoute
    rw [andThen_validation, if_neg hv]

/-- Witness of C19: a create-task request with no title and an unknown status is answered
400 with the two violations in chain order, and the store is unchanged. -/
theorem handleValidationErrors_rejects_witness :
    createTaskRoute sampleLib sampleEnv sampleStore untitledCreate =
      (some { status := 400, success := false, message := some "Validation failed",
              errors := some [("title", "Task title is required"),
                              ("status", "Invalid task status")] },
       sampleStore) :=
  ((handleValidationErrors_rejects_or_continues
      (createTaskValidation sampleLib untitledCreate.body) sampleStore
      (none, sampleStore)).2.2.2.2.2.1 sampleLib sampleEnv untitledCreate
      ⟨ann, by decide, by decide⟩).1 (by decide)

/-- For the owner, a change-password request that passes validation always ends in the
error middleware: the handler loads the user without the `password` path, so
`comparePassword` throws before either answer of the handler is reached. -/
theorem changePasswordRoute_owner_throws {L : Lib} {env : Env} {s : Store}
    {req : Request PasswordBody}
    (hauth : authenticatedAs L env s req.authorization req.id)
    (hv : changePasswordValidation req.body = []) :
    changePasswordRoute L env s req = (some (errorHandler illegalArguments), s) := by
  obtain ⟨u, hu, hp⟩ := hauth
  have hi := lookup_id hu
  have hc : ∃ p, req.body.currentPassword = some p := by
    cases h : req.body.currentPassword with
    | none => simp [changePasswordValidation, check, fieldText, h] at hv
    | some p => exact ⟨p, rfl⟩
  obtain ⟨p, hcp⟩ := hc
  unfold changePasswordRoute
  rw [hp, withUser_pass, andThen_validation, if_pos hv]
  simp only [sends, changePasswordHandler, User.toDoc, hi, ne_eq, not_true_eq_false, if_false,
    findById_eq hu, comparePassword, hcp, illegalArguments]

/-- C16 (the code at a failing input): the sample user sends a wrong current password in a
request that passes validation; the answer is 500 with the bcryptjs error text, not 400
`Current password is incorrect`.  The store is unchanged. -/
theorem changePassword_wrong_current_answers_500 :
    changePasswordValidation wrongCurrent.body = [] ∧
    sampleLib.bcryptCompare "guess99" ann.password = false ∧
    changePasswordRoute sampleLib sampleEnv sampleStore wrongCurrent =
      (some { status := 500, success := false,
              message := some "Illegal arguments: string, undefined" }, sampleStore) := by
  decide

/-- C17 (the code at a failing input): the sample user sends the right current password and
a valid new one; the answer is 500, not 200, and the stored password is still the hash of
the old password and not of the new one. -/
theorem changePassword_right_current_answers_500 :
    changePasswordValidation rightCurrent.body = [] ∧
    sampleLib.bcryptCompare "secret1" ann.password = true ∧
    (changePasswordRoute sampleLib sampleEnv sampleStore rightCurrent).1 =
      some { status := 500, success := false,
             message := some "Illegal arguments: string, undefined" } ∧
    ((changePasswordRoute sampleLib sampleEnv sampleStore rightCurrent).2.lookup 7).map
      (fun u => (sampleLib.bcryptCompare "secret1" u.password,
                 sampleLib.bcryptCompare "secret9" u.password)) = some (true, false) := by
  decide

/-- C20 (the code at a failing input): a create-task request whose title is three spaces
passes the validation chain; the schema's `trim` empties the title, `required` fails on
save, and the answer is 500 from the error middleware, not a 400 validation error.  No task
is appended. -/
theorem createTask_blank_title_answers_500 :
    createTaskValidation sampleLib blankCreate.body = [] ∧
    createTaskRoute sampleLib sampleEnv sampleStore blankCreate =
      (some { status := 500, success := false,
              message := some "User validation failed: tasks.2.title: Task title is required" },
       sampleStore) := by
  decide

/-! ## Login -/

/-- C1 (the code at a failing input): the first sample user logs in with the email and the
password of the account; the answer is 500 with the bcryptjs error text, not 200 with a
token.  `User.findOne` returns the document without `password`, so `comparePassword`
throws. -/
theorem login_right_credentials_answers_500 :
    loginValidation sampleLib annLogin = [] ∧
    (sampleStore.users.find? fun u => decide (u.email = "ann@example.com")) = some ann ∧
    sampleLib.bcryptCompare "secret1" ann.password = true ∧
    loginRoute sampleLib sampleEnv sampleStore annLogin =
      (some { status := 500, success := false,
              message := some "Illegal arguments: string, undefined" }, sampleStore) := by
  decide

/-- C2 (the code at a failing input): with an email no user holds the answer is 400
`Invalid credentials`; with the email of a user and a wrong password it is 500 with the
bcryptjs error text.  The two responses differ. -/
theorem login_failures_differ :
    loginValidation sampleLib strangerLogin = [] ∧
    loginValidation sampleLib annWrongLogin = [] ∧
    (loginRoute sampleLib sampleEnv sampleStore strangerLogin).1 =
      some { status := 400, success := false, message := some "Invalid credentials" } ∧
    (loginRoute sampleLib sampleEnv sampleStore annWrongLogin).1 =
      some { status := 500, success := false,
             message := some "Illegal arguments: string, undefined" } ∧
    (loginRoute sampleLib sampleEnv sampleStore strangerLogin).1 ≠
      (loginRoute sampleLib sampleEnv sampleStore annWrongLogin).1 := by
  decide

/-- For every login request that passes validation and names the email of a stored user,
whatever the password, the handler ends in the error middleware. -/
theorem loginRoute_known_email_throws {L : Lib} {env : Env} {s : Store} {b : LoginBody}
    {e : String} {u : User} (hv : loginValidation L b = []) (he : b.email = some e)
    (hu : (s.users.find? fun u => decide (u.email = normalizeEmail L e)) = some u) :
    loginRoute L env s b = (some (errorHandler illegalArguments), s) := by
  have hp : ∃ p, b.password = some p := by
    cases h : b.password with
    | none => simp [loginValidation, check, fieldText, h] at hv
    | some p => exact ⟨p, rfl⟩
  obtain ⟨p, hp⟩ := hp
  unfold loginRoute
  rw [andThen_validation, if_pos hv]
  simp only [sends, loginHandler, Store.findOne, he, hu, Option.map_some', comparePassword, hp,
    User.toDoc, illegalArguments]

/-! ## The ownership check -/

/-- C3: when `protect` has accepted the caller and the caller's id differs from the path
id, each route under `/api/users/:id` answers 403 `Unauthorized access` to a request that
passes its validation chain, and leaves the store as it was; nothing is assumed about the
path user or the task id. -/
theorem other_user_is_forbidden (L : Lib) (env : Env) (s : Store) (authorization : Option String)
    (caller id taskId : ObjectId)
    (hauth : authenticatedAs L env s authorization caller) (hne : caller ≠ id) :
    forbidden.status = 403 ∧ forbidden.message = some "Unauthorized access" ∧
    getUserRoute L env s ⟨authorization, id, taskId, ()⟩ = (some forbidden, s) ∧
    (∀ b, updateUserValidation L b = [] →
      updateUserRoute L env s ⟨authorization, id, taskId, b⟩ = (some forbidden, s)) ∧
    (∀ b, changePasswordValidation b = [] →
      changePasswordRoute L env s ⟨authorization, id, taskId, b⟩ = (some forbidden, s)) ∧
    deleteUserRoute L env s ⟨authorization, id, taskId, ()⟩ = (some forbidden, s) ∧
    getTasksRoute L env s ⟨authorization, id, taskId, ()⟩ = (some forbidden, s) ∧
    (∀ b, createTaskValidation L b = [] →
      createTaskRoute L env s ⟨authorization, id, taskId, b⟩ = (some forbidden, s)) ∧
    (∀ b, updateTaskValidation L b = [] →
      updateTaskRoute L env s ⟨authorization, id, taskId, b⟩ = (some forbidden, s)) ∧
    deleteTaskRoute L env s ⟨authorization, id, taskId, ()⟩ = (some forbidden, s) := by
  obtain ⟨u, hu, hp⟩ := hauth
  have hi : u.toDoc._id ≠ id := by
    have := lookup_id hu
    simpa [User.toDoc, this] using hne
  refine ⟨rfl, rfl, ?_, ?_, ?_, ?_, ?_, ?_, ?_, ?_⟩
  · simp only [getUserRoute, hp, withUser_pass, sends, getUserHandler, if_pos hi]
  · intro b hv
    simp only [updateUserRoute, hp, withUser_pass, andThen_validation, hv, if_true, sends,
      updateUserHandler, if_pos hi]
  · intro b hv
    simp only [changePasswordRoute, hp, withUser_pass, andThen_validation, hv, if_true, sends,
      changePasswordHandler, if_pos hi]
  · simp only [deleteUserRoute, hp, withUser_pass, sends, deleteUserHandler, if_pos hi]
  · simp only [getTasksRoute, hp, withUser_pass, sends, getTasksHandler, if_pos hi]
  · intro b hv
    simp only [createTaskRoute, hp, withUser_pass, andThen_validation, hv, if_true, sends,
      createTaskHandler, if_pos hi]
  · intro b hv
    simp only [updateTaskRoute, hp, withUser_pass, andThen_validation, hv, if_true, sends,
      updateTaskHandler, if_pos hi]
  · simp only [deleteTaskRoute, hp, withUser_pass, sends, deleteTaskHandler, if_pos hi]

/-- Witness of C3: the second sample user asks for the routes of the first. -/
theorem other_user_is_forbidden_witness :
    forbidden.status = 403 ∧ forbidden.message = some "Unauthorized access" ∧
    getUserRoute sampleLib sampleEnv sampleStore ⟨some "Bearer token8", 7, 101, ()⟩
      = (some forbidden, sampleStore) ∧
    (∀ b, updateUserValidation sampleLib b = [] →
      updateUserRoute sampleLib sampleEnv sampleStore ⟨some "Bearer token8", 7, 101, b⟩
        = (some forbidden, sampleStore)) ∧
    (∀ b, changePasswordValidation b = [] →
      changePasswordRoute sampleLib sampleEnv sampleStore ⟨some "Bearer token8", 7, 101, b⟩
        = (some forbidden, sampleStore)) ∧
    deleteUserRoute sampleLib sampleEnv sampleStore ⟨some "Bearer token8", 7, 101, ()⟩
      = (some forbidden, sampleStore) ∧
    getTasksRoute sampleLib sampleEnv sampleStore ⟨some "Bearer token8", 7, 101, ()⟩
      = (some forbidden, sampleStore) ∧
    (∀ b, createTaskValidation sampleLib b = [] →
      createTaskRoute sampleLib sampleEnv sampleStore ⟨some "Bearer token8", 7, 101, b⟩
        = (some forbidden, sampleStore)) ∧
    (∀ b, updateTaskValidation sampleLib b = [] →
      updateTaskRoute sampleLib sampleEnv sampleStore ⟨some "Bearer token8", 7, 101, b⟩
        = (some forbidden, sampleStore)) ∧
    deleteTaskRoute sampleLib sampleEnv sampleStore ⟨some "Bearer token8", 7, 101, ()⟩
      = (some forbidden, sampleStore) :=
  other_user_is_forbidden sampleLib sampleEnv sampleStore (some "Bearer token8") 8 7 101
    ⟨bob, by decide, by decide⟩ (by decide)

/-! ## The gate `protect` -/

theorem splitSpaceAux_no_space (cs cur : List Char) (h : ' ' ∉ cs) :
    splitSpaceAux cs cur = [String.mk (cur.reverse ++ cs)] := by
  induction cs generalizing cur with
  | nil => simp [splitSpaceAux]
  | cons c cs ih =>
    have hc : c ≠ ' ' := fun e => h (e ▸ List.mem_cons_self _ _)
    have hcs : ' ' ∉ cs := fun m => h (List.mem_cons_of_mem _ m)
    simp [splitSpaceAux, hc, ih _ hcs]

/-- The token `protect` reads from `Bearer <token>` when the token holds no space. -/
theorem bearer_token (tok : String) (h : ' ' ∉ tok.data) :
    (jsSplitSpace ("Bearer " ++ tok))[1]? = some tok := by
  have hd : ("Bearer " ++ tok).data = 'B' :: 'e' :: 'a' :: 'r' :: 'e' :: 'r' :: ' ' :: tok.data := by
    rw [String.data_append]; rfl
  unfold jsSplitSpace
  rw [hd]
  simp [splitSpaceAux, splitSpaceAux_no_space _ _ h]

theorem bearer_startsWith (tok : String) :
    ("Bearer " ++ tok ≠ "" ∧ jsStartsWith ("Bearer " ++ tok) "Bearer" = true) := by
  have hd : ("Bearer " ++ tok).data = 'B' :: 'e' :: 'a' :: 'r' :: 'e' :: 'r' :: ' ' :: tok.data := by
    rw [String.data_append]; rfl
  constructor
  · intro e
    have := congrArg String.data e
    rw [hd] at this
    simp at this
  · unfold jsStartsWith
    rw [hd]
    rfl

/-- What `protect` does with `Bearer <token>` for a token without a space. -/
theorem protect_bearer (L : Lib) (env : Env) (s : Store) (tok : String) (h : ' ' ∉ tok.data) :
    protect L env s (some ("Bearer " ++ tok)) =
      match verifyToken L (some tok) env.verifyAt with
      | none => { sent := [tokenFailed], nextCalls := 0 }
      | some id =>
        match s.findById id with
        | none => { sent := [userGone], nextCalls := 0 }
        | some u => { sent := [], nextCalls := 1, reqUser := some u } := by
  unfold protect
  simp only [if_pos (bearer_startsWith tok), bearer_token tok h]
  cases hv : verifyToken L (some tok) env.verifyAt with
  | none => rfl
  | some id =>
    dsimp only
    cases hf : s.findById id with
    | none => rfl
    | some u =>
      have : tokenFalsy (some tok) = false := by
        cases ht : tokenFalsy (some tok) with
        | false => rfl
        | true => rw [verifyToken_falsy L _ _ ht] at hv; cases hv
      simp [this]

/-- C6 (amended): `protect` sends one 401 `Not authorized, no token` and does not call
`next` when the Authorization header is absent, empty or does not start with `Bearer`.
A header that starts with `Bearer` goes on to verification of the text after its first
space, and is answered 401 `Not authorized, token failed`, again without `next`, when
that text is missing or empty. -/
theorem protect_without_token (L : Lib) (env : Env) (s : Store) (authorization : Option String) :
    noToken.status = 401 ∧ noToken.message = some "Not authorized, no token" ∧
    tokenFailed.status = 401 ∧ tokenFailed.message = some "Not authorized, token failed" ∧
    (authorization = none → protect L env s authorization = { sent := [noToken], nextCalls := 0 }) ∧
    (∀ header, authorization = some header → (header = "" ∨ jsStartsWith header "Bearer" = false) →
      protect L env s authorization = { sent := [noToken], nextCalls := 0 }) ∧
    (∀ header, authorization = some header → header ≠ "" → jsStartsWith header "Bearer" = true →
      tokenFalsy ((jsSplitSpace header)[1]?) = true →
      protect L env s authorization = { sent := [tokenFailed], nextCalls := 0 }) := by
  refine ⟨rfl, rfl, rfl, rfl, ?_, ?_, ?_⟩
  · intro h; subst h; rfl
  · intro header h hbad
    subst h
    unfold protect
    have : ¬ (header ≠ "" ∧ jsStartsWith header "Bearer" = true) := by
      rcases hbad with h1 | h1
      · exact fun c => c.1 h1
      · exact fun c => by rw [h1] at c; exact Bool.noConfusion c.2
    simp only [if_neg this]
    rfl
  · intro header h hne hsw hf
    subst h
    unfold protect
    simp only [if_pos (And.intro hne hsw), verifyToken_falsy L _ _ hf]
    rfl

/-- Witness of C6: a request without the header, one with a Basic header, and one whose
header is the bare word `Bearer`. -/
theorem protect_without_token_witness :
    protect sampleLib sampleEnv sampleStore none = { sent := [noToken], nextCalls := 0 } ∧
    protect sampleLib sampleEnv sampleStore (some "Basic dG9rZW43") =
      { sent := [noToken], nextCalls := 0 } ∧
    protect sampleLib sampleEnv sampleStore (some "Bearer") =
      { sent := [tokenFailed], nextCalls := 0 } :=
  have h := protect_without_token sampleLib sampleEnv sampleStore
  ⟨(h none).2.2.2.2.1 rfl,
   (h (some "Basic dG9rZW43")).2.2.2.2.2.1 _ rfl (Or.inr (by decide)),
   (h (some "Bearer")).2.2.2.2.2.2 _ rfl (by decide) (by decide) (by decide)⟩

/-- C6 as stated fails: the header `Bearer` alone, which is not `Bearer ` followed by a
token, is answered `Not authorized, token failed`, not `Not authorized, no token`; and the
header `BearerX token7` is accepted, `next` is called. -/
theorem protect_malformed_header_not_no_token :
    protect sampleLib sampleEnv sampleStore (some "Bearer") =
      { sent := [notAuthorized "Not authorized, token failed"], nextCalls := 0 } ∧
    protect sampleLib sampleEnv sampleStore (some "BearerX token7") =
      { sent := [], nextCalls := 1, reqUser := some ann.toDoc } := by
  decide

/-- C7: for the header `Bearer <token>`, when `jwt.verify` rejects the token at the time
of the request (wrong signature, changed payload or expired), `protect` sends one 401
`Not authorized, token failed` and does not call `next`. -/
theorem protect_rejects_failed_token (L : Lib) (env : Env) (s : Store) (tok : String)
    (hshape : ' ' ∉ tok.data) (hfail : L.jwtVerify tok env.verifyAt = none) :
    protect L env s (some ("Bearer " ++ tok)) = { sent := [tokenFailed], nextCalls := 0 } ∧
    tokenFailed.status = 401 ∧ tokenFailed.message = some "Not authorized, token failed" := by
  rw [protect_bearer L env s tok hshape]
  have : verifyToken L (some tok) env.verifyAt = none := by
    unfold verifyToken
    by_cases h : tok = ""
    · simp [h]
    · simp [h, hfail]
  rw [this]
  exact ⟨rfl, rfl, rfl⟩

/-- Witness of C7: a token the sample verifier does not know. -/
theorem protect_rejects_failed_token_witness :
    protect sampleLib sampleEnv sampleStore (some ("Bearer " ++ "token7x")) =
      { sent := [tokenFailed], nextCalls := 0 } ∧
    tokenFailed.status = 401 ∧ tokenFailed.message = some "Not authorized, token failed" :=
  protect_rejects_failed_token sampleLib sampleEnv sampleStore "token7x" (by decide) (by decide)

/-- C8: for the header `Bearer <token>`, when the token verifies and the id of its payload
is the id of no stored user, `protect` sends one 401 `Not authorized, user not found` and
does not call `next`. -/
theorem protect_rejects_unknown_user (L : Lib) (env : Env) (s : Store) (tok : String)
    (id : ObjectId) (hshape : ' ' ∉ tok.data) (hne : tok ≠ "")
    (hvalid : L.jwtVerify tok env.verifyAt = some id) (hgone : s.lookup id = none) :
    protect L env s (some ("Bearer " ++ tok)) = { sent := [userGone], nextCalls := 0 } ∧
    userGone.status = 401 ∧ userGone.message = some "Not authorized, user not found" := by
  rw [protect_bearer L env s tok hshape]
  have : verifyToken L (some tok) env.verifyAt = some id := by
    simp [verifyToken, hne, hvalid]
  rw [this]
  dsimp only
  rw [findById_none hgone]
  exact ⟨rfl, rfl, rfl⟩

/-- Witness of C8: the token of the first sample user after the account was deleted. -/
theorem protect_rejects_unknown_user_witness :
    protect sampleLib sampleEnv storeWithoutAnn (some ("Bearer " ++ "token7")) =
      { sent := [userGone], nextCalls := 0 } ∧
    userGone.status = 401 ∧ userGone.message = some "Not authorized, user not found" :=
  protect_rejects_unknown_user sampleLib sampleEnv storeWithoutAnn "token7" 7 (by decide)
    (by decide) (by decide) (by decide)

/-! ## Signup -/

theorem signupHandler_created {L : Lib} {env : Env} {s s' : Store} {b : SignupBody} {r : Response}
    (h : signupHandler L env s b = (r, s')) (hok : r.status = 201) :
    s' = { users := s.users ++ [newUser L env b] } ∧
    (∀ v ∈ s.users, v._id ≠ env.newId ∧ v.email ≠ (newUser L env b).email) ∧
    r = { status := 201, success := true, message := some "User registered successfully",
          token := some (L.jwtSign env.newId env.signAt),
          user := some (authView env.newId (newUser L env b).name (newUser L env b).email) } := by
  unfold signupHandler at h
  cases hf : s.findOne L b.email with
  | some d =>
    rw [hf] at h
    simp only [Prod.mk.injEq] at h
    rw [← h.1] at hok; cases hok
  | none =>
    rw [hf] at h
    cases hv : validateNewUser L b with
    | cons e es =>
      rw [hv] at h
      simp only [Prod.mk.injEq] at h
      rw [← h.1] at hok
      simp [errorHandler, validationFailed] at hok
    | nil =>
      rw [hv] at h
      simp only at h
      by_cases hany : (s.users.any fun u =>
          decide (u._id = (newUser L env b)._id ∨ u.email = (newUser L env b).email)) = true
      · rw [if_pos hany] at h
        simp only [Prod.mk.injEq] at h
        rw [← h.1] at hok
        simp [errorHandler, duplicateKey] at hok
      · rw [if_neg hany] at h
        simp only [Prod.mk.injEq] at h
        refine ⟨h.2.symm, ?_, h.1.symm⟩
        intro v hv
        simp only [List.any_eq_true, decide_eq_true_eq, not_exists, not_and, not_or] at hany
        exact hany v hv

theorem find_append_new (us : List User) (u : User) (h : ∀ v ∈ us, v._id ≠ u._id) :
    (us ++ [u]).find? (fun v => decide (v._id = u._id)) = some u := by
  induction us with
  | nil => simp
  | cons v vs ih =>
    have hv : ¬ v._id = u._id := h v (List.mem_cons_self _ _)
    simp only [List.cons_append, List.find?_cons, decide_eq_false hv]
    exact ih fun w hw => h w (List.mem_cons_of_mem _ hw)

/-- C4 (amended): when a signup request is answered 201, it passed `registerValidation`, one
user was created, and the response carries the token signed for the id of that user.  When
verifying that token yields that id (the contract of the signer, before expiry), `protect`
given `Bearer <token>` leaves exactly the created user in `req.user`, calls `next` once
and sends nothing. -/
theorem signup_token_authenticates (L : Lib) (env env2 : Env) (s s' : Store) (b : SignupBody)
    (r : Response)
    (hsignup : signupRoute L env s b = (some r, s')) (hok : r.status = 201)
    (hshape : ' ' ∉ (L.jwtSign env.newId env.signAt).data ∧ L.jwtSign env.newId env.signAt ≠ "")
    (hverify : L.jwtVerify (L.jwtSign env.newId env.signAt) env2.verifyAt = some env.newId) :
    registerValidation L b = [] ∧
    r.success = true ∧
    r.token = some (L.jwtSign env.newId env.signAt) ∧
    r.user = some (authView env.newId (newUser L env b).name (newUser L env b).email) ∧
    s'.users = s.users ++ [newUser L env b] ∧
    (newUser L env b)._id = env.newId ∧
    protect L env2 s' (some ("Bearer " ++ L.jwtSign env.newId env.signAt)) =
      { sent := [], nextCalls := 1, reqUser := some (newUser L env b).toDoc } := by
  unfold signupRoute at hsignup
  rw [andThen_validation] at hsignup
  by_cases hv : registerValidation L b = []
  · rw [if_pos hv] at hsignup
    simp only [sends, Prod.mk.injEq, Option.some.injEq] at hsignup
    have hh : signupHandler L env s b = (r, s') := Prod.ext hsignup.1 hsignup.2
    obtain ⟨hs', hfresh, hr⟩ := signupHandler_created hh hok
    refine ⟨hv, by rw [hr], by rw [hr], by rw [hr], by rw [hs'], rfl, ?_⟩
    rw [protect_bearer L env2 s' _ hshape.1]
    have hvt : verifyToken L (some (L.jwtSign env.newId env.signAt)) env2.verifyAt
        = some env.newId := by
      simp [verifyToken, hshape.2, hverify]
    have hl : s'.lookup env.newId = some (newUser L env b) := by
      rw [hs']
      exact find_append_new s.users (newUser L env b) fun v hv => (hfresh v hv).1
    rw [hvt]
    dsimp only
    rw [findById_eq hl]
  · rw [if_neg hv] at hsignup
    simp only [Prod.mk.injEq, Option.some.injEq] at hsignup
    rw [← hsignup.1] at hok; cases hok

/-- Witness of C4: the sample signup, then `protect` on the returned token. -/
theorem signup_token_authenticates_witness :
    registerValidation laterLib cySignup = [] ∧
    cyRegistered.success = true ∧
    cyRegistered.token = some (laterLib.jwtSign sampleEnv.newId sampleEnv.signAt) ∧
    cyRegistered.user = some (authView sampleEnv.newId (newUser laterLib sampleEnv cySignup).name
      (newUser laterLib sampleEnv cySignup).email) ∧
    ({ users := [ann, bob, cy] } : Store).users = sampleStore.users ++ [newUser laterLib sampleEnv cySignup] ∧
    (newUser laterLib sampleEnv cySignup)._id = sampleEnv.newId ∧
    protect laterLib laterEnv { users := [ann, bob, cy] }
        (some ("Bearer " ++ laterLib.jwtSign sampleEnv.newId sampleEnv.signAt)) =
      { sent := [], nextCalls := 1, reqUser := some (newUser laterLib sampleEnv cySignup).toDoc } :=
  signup_token_authenticates laterLib sampleEnv laterEnv sampleStore { users := [ann, bob, cy] }
    cySignup cyRegistered (by decide) (by decide) (by decide) (by decide)

/-- C4 as stated fails: a signup request with a name of 51 characters and an email no user
holds passes `registerValidation`, which has no upper bound on the name; the schema's
`maxlength` fails on save and the answer is 500, without token or user. -/
theorem signup_valid_request_not_success :
    registerValidation sampleLib longNameSignup = [] ∧
    sampleStore.findOne sampleLib longNameSignup.email = none ∧
    signupRoute sampleLib sampleEnv sampleStore longNameSignup =
      (some { status := 500, success := false,
              message := some
                "User validation failed: name: Name cannot be more than 50 characters" },
       sampleStore) := by
  decide

/-! ## One request, one step -/

theorem withUser_store (P : Store → Prop) (L : Lib) (env : Env) (s : Store) (a : Option String)
    (handler : UserDoc → Outcome) (hs : P s) (hh : ∀ u, P (handler u).2) :
    P (withUser (protect L env s a) s handler).2 := by
  rcases withUser_protect_cases L env s a handler with ⟨m, hm⟩ | ⟨id, u, -, -, hp⟩
  · rw [hm]; exact hs
  · rw [hp]; exact hh _

theorem validation_store (P : Store → Prop) (errors : List ValidationError) (s : Store)
    (rest : Outcome) (hs : P s) (hr : P rest.2) :
    P ((handleValidationErrors errors).andThen s rest).2 := by
  rw [andThen_validation]
  by_cases h : errors = []
  · rw [if_pos h]; exact hr
  · rw [if_neg h]; exact hs

/-- The two ways a signup ends: a response other than 201 and the store as it was, or 201
and one new document, whose id and email no stored user has. -/
theorem signupRoute_cases (L : Lib) (env : Env) (s : Store) (b : SignupBody) :
    (∃ r, signupRoute L env s b = (some r, s) ∧ r.status ≠ 201) ∨
    (∃ r, signupRoute L env s b = (some r, { users := s.users ++ [newUser L env b] }) ∧
      r.status = 201 ∧
      ∀ v ∈ s.users, v._id ≠ env.newId ∧ v.email ≠ (newUser L env b).email) := by
  unfold signupRoute
  rw [andThen_validation]
  by_cases hv : registerValidation L b = []
  · rw [if_pos hv]
    unfold signupHandler sends
    cases s.findOne L b.email with
    | some d => exact Or.inl ⟨_, rfl, by simp⟩
    | none =>
      cases validateNewUser L b with
      | cons e es => exact Or.inl ⟨_, rfl, by simp [errorHandler, validationFailed]⟩
      | nil =>
        dsimp only
        by_cases hany : (s.users.any fun u =>
            decide (u._id = (newUser L env b)._id ∨ u.email = (newUser L env b).email)) = true
        · rw [if_pos hany]
          exact Or.inl ⟨_, rfl, by simp [errorHandler, duplicateKey]⟩
        · rw [if_neg hany]
          refine Or.inr ⟨_, rfl, rfl, ?_⟩
          intro v hv
          simp only [List.any_eq_true, decide_eq_true_eq, not_exists, not_and, not_or] at hany
          exact hany v hv
  · rw [if_neg hv]
    exact Or.inl ⟨_, rfl, by simp [validationFailedResponse]⟩

theorem loginHandler_store (L : Lib) (env : Env) (s : Store) (b : LoginBody) :
    (loginHandler L env s b).2 = s := by
  unfold loginHandler
  cases s.findOne L b.email with
  | none => rfl
  | some d =>
    dsimp only
    cases comparePassword L d b.password with
    | error e => rfl
    | ok v => cases v <;> rfl

theorem getUserHandler_store (s : Store) (u : UserDoc) (id : ObjectId) :
    (getUserHandler s u id).2 = s := by
  unfold getUserHandler
  split
  · rfl
  · cases s.lookup id <;> rfl

theorem getTasksHandler_store (s : Store) (u : UserDoc) (id : ObjectId) :
    (getTasksHandler s u id).2 = s := by
  unfold getTasksHandler
  split
  · rfl
  · cases s.findById id <;> rfl

theorem updateUserHandler_step (L : Lib) (s : Store) (u : UserDoc) (id : ObjectId)
    (b : ProfileBody) : StoreStep L s (updateUserHandler L s u id b).2 := by
  unfold updateUserHandler
  split
  · exact .same
  · cases validateProfile L b with
    | cons e es => exact .same
    | nil =>
      dsimp only
      cases hl : s.lookup id with
      | none => exact .same
      | some user =>
        dsimp only
        by_cases hany : (s.users.any fun v =>
            decide (v._id ≠ id ∧ v.email = (applyProfile L user b).email)) = true
        · rw [if_pos hany]; exact .same
        · rw [if_neg hany]
          refine .profile id b user hl ?_
          intro v hv hne
          simp only [List.any_eq_true, decide_eq_true_eq, not_exists, not_and] at hany
          exact hany v hv hne

theorem changePasswordHandler_unloaded (L : Lib) (env : Env) (s : Store) (u : UserDoc)
    (id : ObjectId) (b : PasswordBody) :
    (changePasswordHandler L env s u id b).2 = s ∧
    (changePasswordHandler L env s u id b).1.status ≠ 200 := by
  unfold changePasswordHandler
  split
  · exact ⟨rfl, by simp [forbidden]⟩
  · cases hl : s.lookup id with
    | none => rw [findById_none hl]; exact ⟨rfl, by simp [userNotFound]⟩
    | some user =>
      rw [findById_eq hl]
      cases hc : b.currentPassword with
      | none => simp [comparePassword, hc, User.toDoc, errorHandler]
      | some p => simp [comparePassword, hc, User.toDoc, errorHandler]

theorem deleteUserHandler_step (L : Lib) (s : Store) (u : UserDoc) (id : ObjectId) :
    StoreStep L s (deleteUserHandler s u id).2 := by
  unfold deleteUserHandler
  split
  · exact .same
  · cases s.lookup id with
    | none => exact .same
    | some user => exact .delete id

theorem createTaskHandler_step (L : Lib) (env : Env) (s : Store) (u : UserDoc) (id : ObjectId)
    (b : TaskBody) : StoreStep L s (createTaskHandler L env s u id b).2 := by
  unfold createTaskHandler
  split
  · exact .same
  · cases s.findById id with
    | none => exact .same
    | some user =>
      dsimp only
      cases validateNewTask user.tasks.length (newTask L env b) with
      | nil => exact .tasks env id _
      | cons e es => exact .same

theorem updateTaskHandler_step (L : Lib) (env : Env) (s : Store) (u : UserDoc)
    (id taskId : ObjectId) (b : TaskBody) :
    StoreStep L s (updateTaskHandler L env s u id taskId b).2 := by
  unfold updateTaskHandler
  split
  · exact .same
  · cases s.findById id with
    | none => exact .same
    | some user =>
      dsimp only
      cases checkTaskOwnership user taskId with
      | none => exact .same
      | some task =>
        dsimp only
        split
        · exact .tasks env id _
        · exact .same

theorem deleteTaskHandler_step (L : Lib) (env : Env) (s : Store) (u : UserDoc)
    (id taskId : ObjectId) : StoreStep L s (deleteTaskHandler env s u id taskId).2 := by
  unfold deleteTaskHandler
  split
  · exact .same
  · cases s.findById id with
    | none => exact .same
    | some user =>
      dsimp only
      cases checkTaskOwnership user taskId with
      | none => exact .same
      | some task => exact .tasks env id _

/-- Every request other than a signup changes the collection by one of the steps of
`StoreStep`. -/
theorem serve_step (L : Lib) (env : Env) (s : Store) (q : ApiRequest) :
    (∃ b, q = .signup b) ∨ StoreStep L s (serve L env s q).2 := by
  cases q with
  | signup b => exact Or.inl ⟨b, rfl⟩
  | login b =>
    refine Or.inr (validation_store (StoreStep L s) _ s _ .same ?_)
    simp only [sends, loginHandler_store]; exact .same
  | getUser req =>
    refine Or.inr (withUser_store (StoreStep L s) L env s _ _ .same fun u => ?_)
    simp only [sends, getUserHandler_store]; exact .same
  | updateUser req =>
    refine Or.inr (withUser_store (StoreStep L s) L env s _ _ .same fun u => ?_)
    exact validation_store (StoreStep L s) _ s _ .same (updateUserHandler_step L s u _ _)
  | changePassword req =>
    refine Or.inr (withUser_store (StoreStep L s) L env s _ _ .same fun u => ?_)
    refine validation_store (StoreStep L s) _ s _ .same ?_
    simp only [sends, (changePasswordHandler_unloaded L env s u _ _).1]; exact .same
  | deleteUser req =>
    exact Or.inr (withUser_store (StoreStep L s) L env s _ _ .same fun u =>
      deleteUserHandler_step L s u _)
  | getTasks req =>
    refine Or.inr (withUser_store (StoreStep L s) L env s _ _ .same fun u => ?_)
    simp only [sends, getTasksHandler_store]; exact .same
  | createTask req =>
    refine Or.inr (withUser_store (StoreStep L s) L env s _ _ .same fun u => ?_)
    exact validation_store (StoreStep L s) _ s _ .same (createTaskHandler_step L env s u _ _)
  | updateTask req =>
    refine Or.inr (withUser_store (StoreStep L s) L env s _ _ .same fun u => ?_)
    exact validation_store (StoreStep L s) _ s _ .same (updateTaskHandler_step L env s u _ _ _)
  | deleteTask req =>
    exact Or.inr (withUser_store (StoreStep L s) L env s _ _ .same fun u =>
      deleteTaskHandler_step L env s u _ _)

/-! ## Invariants of the collection -/

theorem map_updateOne (id : ObjectId) (f : User → User) {β : Type} (g : User → β)
    (hf : ∀ u, g (f u) = g u) (us : List User) : (updateOne id f us).map g = us.map g := by
  induction us with
  | nil => rfl
  | cons u us ih =>
    by_cases h : u._id = id
    · simp [updateOne, h, hf]
    · simp [updateOne, h, ih]

theorem mem_updateOne {id : ObjectId} {f : User → User} {us : List User} {v : User}
    (h : v ∈ updateOne id f us) : v ∈ us ∨ ∃ u ∈ us, v = f u := by
  induction us with
  | nil => simp [updateOne] at h
  | cons u us ih =>
    by_cases hu : u._id = id
    · simp only [updateOne, if_pos hu, List.mem_cons] at h
      rcases h with h | h
      · exact Or.inr ⟨u, List.mem_cons_self _ _, h⟩
      · exact Or.inl (List.mem_cons_of_mem _ h)
    · simp only [updateOne, if_neg hu, List.mem_cons] at h
      rcases h with h | h
      · exact Or.inl (h ▸ List.mem_cons_self _ _)
      · rcases ih h with h | ⟨w, hw, e⟩
        · exact Or.inl (List.mem_cons_of_mem _ h)
        · exact Or.inr ⟨w, List.mem_cons_of_mem _ hw, e⟩

theorem updateOne_split (id : ObjectId) (f : User → User) (pre post : List User) (u : User)
    (hpre : ∀ v ∈ pre, v._id ≠ id) (hu : u._id = id) :
    updateOne id f (pre ++ u :: post) = pre ++ f u :: post := by
  induction pre with
  | nil => simp [updateOne, hu]
  | cons v vs ih =>
    have hv : ¬ v._id = id := hpre v (List.mem_cons_self _ _)
    simp only [List.cons_append, updateOne, if_neg hv]
    exact congrArg (v :: ·) (ih fun w hw => hpre w (List.mem_cons_of_mem _ hw))

theorem saveTasks_ids (s : Store) (env : Env) (id : ObjectId) (ts : List Task) :
    (s.saveTasks env id ts).users.map (·._id) = s.users.map (·._id) :=
  map_updateOne id (fun u => { u with tasks := ts, updatedAt := env.saveNow }) (·._id)
    (fun _ => rfl) s.users

theorem saveTasks_emails (s : Store) (env : Env) (id : ObjectId) (ts : List Task) :
    (s.saveTasks env id ts).users.map (·.email) = s.users.map (·.email) :=
  map_updateOne id (fun u => { u with tasks := ts, updatedAt := env.saveNow }) (·.email)
    (fun _ => rfl) s.users

theorem saveTasks_passwords (s : Store) (env : Env) (id : ObjectId) (ts : List Task) :
    (s.saveTasks env id ts).users.map (fun u => (u._id, u.password))
      = s.users.map (fun u => (u._id, u.password)) :=
  map_updateOne id (fun u => { u with tasks := ts, updatedAt := env.saveNow })
    (fun u => (u._id, u.password)) (fun _ => rfl) s.users

theorem applyProfile_ids (L : Lib) (id : ObjectId) (b : ProfileBody) (us : List User) :
    (updateOne id (fun u => applyProfile L u b) us).map (·._id) = us.map (·._id) :=
  map_updateOne id (fun u => applyProfile L u b) (·._id) (fun _ => rfl) us

theorem applyProfile_passwords (L : Lib) (id : ObjectId) (b : ProfileBody) (us : List User) :
    (updateOne id (fun u => applyProfile L u b) us).map (fun u => (u._id, u.password))
      = us.map (fun u => (u._id, u.password)) :=
  map_updateOne id (fun u => applyProfile L u b) (fun u => (u._id, u.password))
    (fun _ => rfl) us

theorem deleteOne_sublist (id : ObjectId) (us : List User) : (deleteOne id us).Sublist us := by
  induction us with
  | nil => exact List.Sublist.refl _
  | cons u us ih =>
    by_cases h : u._id = id
    · simp only [deleteOne, if_pos h]; exact List.sublist_cons_self _ _
    · simp only [deleteOne, if_neg h]; exact ih.cons₂ _

/-- Every step of a request other than a signup keeps the shape of the collection. -/
theorem StoreStep.wf {L : Lib} {s s' : Store} (h : StoreStep L s s')
    (hidem : ∀ x, L.toLowerCase (L.toLowerCase x) = L.toLowerCase x) (hw : s.Wf L) :
    s'.Wf L := by
  obtain ⟨hid, hem, hlow⟩ := hw
  cases h with
  | same => exact ⟨hid, hem, hlow⟩
  | tasks env id ts =>
    refine ⟨?_, ?_, ?_⟩
    · rw [saveTasks_ids]; exact hid
    · rw [saveTasks_emails]; exact hem
    · intro u hu
      rcases mem_updateOne hu with hu | ⟨w, hw, rfl⟩
      · exact hlow u hu
      · exact hlow w hw
  | profile id b user hl hfree =>
    obtain ⟨pre, post, hsplit, hpre, huid, -⟩ := lookup_split id s.users hl
    have hupd : updateOne id (fun u => applyProfile L u b) s.users
        = pre ++ applyProfile L user b :: post := by
      rw [hsplit]; exact updateOne_split id _ pre post user hpre huid
    have hlow' : L.toLowerCase (applyProfile L user b).email = (applyProfile L user b).email := by
      unfold applyProfile
      cases b.email with
      | none => exact hlow user (hsplit ▸ by simp)
      | some e => exact hidem _
    refine ⟨?_, ?_, ?_⟩
    · show ((updateOne id (fun u => applyProfile L u b) s.users).map (·._id)).Nodup
      rw [applyProfile_ids]; exact hid
    · show ((updateOne id (fun u => applyProfile L u b) s.users).map (·.email)).Nodup
      rw [hupd]
      rw [hsplit] at hem hid
      simp only [List.map_append, List.map_cons] at hem hid ⊢
      rw [List.nodup_append] at hem hid ⊢
      obtain ⟨hpre_em, hpost_em, hdisj_em⟩ := hem
      obtain ⟨-, hpost_id, hdisj_id⟩ := hid
      rw [List.nodup_cons] at hpost_em hpost_id ⊢
      have hne_pre : ∀ v ∈ pre, v.email ≠ (applyProfile L user b).email := fun v hv =>
        hfree v (hsplit ▸ List.mem_append_left _ hv) (hpre v hv)
      have hne_post : ∀ v ∈ post, v.email ≠ (applyProfile L user b).email := by
        intro v hv
        refine hfree v (hsplit ▸ List.mem_append_right _ (List.mem_cons_of_mem _ hv)) ?_
        intro e
        exact hpost_id.1 (by rw [huid, ← e]; exact List.mem_map_of_mem (·._id) hv)
      refine ⟨hpre_em, ⟨?_, hpost_em.2⟩, ?_⟩
      · intro hmem
        obtain ⟨v, hv, e⟩ := List.mem_map.1 hmem
        exact hne_post v hv e
      · intro x hx hx'
        rcases List.mem_cons.1 hx' with rfl | hx'
        · obtain ⟨v, hv, e⟩ := List.mem_map.1 hx
          exact hne_pre v hv e
        · exact hdisj_em hx (List.mem_cons_of_mem _ hx')
    · intro u hu
      have hu' : u ∈ pre ++ applyProfile L user b :: post := hupd ▸ hu
      rcases List.mem_append.1 hu' with h | h
      · exact hlow u (hsplit ▸ List.mem_append_left _ h)
      · rcases List.mem_cons.1 h with rfl | h
        · exact hlow'
        · exact hlow u (hsplit ▸ List.mem_append_right _ (List.mem_cons_of_mem _ h))
  | delete id =>
    have hsub := deleteOne_sublist id s.users
    exact ⟨(hsub.map _).nodup hid, (hsub.map _).nodup hem, fun u hu => hlow u (hsub.subset hu)⟩

/-- Every request keeps the shape of the collection. -/
theorem serve_wf (L : Lib) (env : Env) (s : Store) (q : ApiRequest)
    (hidem : ∀ x, L.toLowerCase (L.toLowerCase x) = L.toLowerCase x) (hw : s.Wf L) :
    ((serve L env s q).2).Wf L := by
  rcases serve_step L env s q with ⟨b, rfl⟩ | h
  · show (signupRoute L env s b).2.Wf L
    rcases signupRoute_cases L env s b with ⟨r, hr, -⟩ | ⟨r, hr, -, hfresh⟩
    · rw [hr]; exact hw
    · rw [hr]
      obtain ⟨hid, hem, hlow⟩ := hw
      refine ⟨?_, ?_, ?_⟩
      · simp only [List.map_append, List.map_cons, List.map_nil]
        rw [List.nodup_append]
        refine ⟨hid, List.nodup_singleton _, ?_⟩
        intro x hx hx'
        obtain ⟨v, hv, e⟩ := List.mem_map.1 hx
        rw [List.mem_singleton] at hx'
        exact (hfresh v hv).1 (e.trans hx')
      · simp only [List.map_append, List.map_cons, List.map_nil]
        rw [List.nodup_append]
        refine ⟨hem, List.nodup_singleton _, ?_⟩
        intro x hx hx'
        obtain ⟨v, hv, e⟩ := List.mem_map.1 hx
        rw [List.mem_singleton] at hx'
        exact (hfresh v hv).2 (e.trans hx')
      · intro u hu
        rcases List.mem_append.1 hu with h | h
        · exact hlow u h
        · rw [List.mem_singleton] at h
          subst h
          exact hidem _
  · exact h.wf hidem hw

theorem run_wf (L : Lib) (hidem : ∀ x, L.toLowerCase (L.toLowerCase x) = L.toLowerCase x)
    (trace : List (Env × ApiRequest)) (s : Store) (hw : s.Wf L) : (run L s trace).Wf L := by
  induction trace generalizing s with
  | nil => exact hw
  | cons x rest ih => exact ih _ (serve_wf L x.1 s x.2 hidem hw)

theorem emptyStore_wf (L : Lib) : emptyStore.Wf L :=
  ⟨List.nodup_nil, List.nodup_nil, fun _ h => absurd h (List.not_mem_nil _)⟩

theorem char_toLower_idem (c : Char) : c.toLower.toLower = c.toLower := by
  by_cases h : c.toNat ≥ 65 ∧ c.toNat ≤ 90
  · have hc : c = Char.ofNat c.toNat := (Char.ofNat_toNat c).symm
    generalize c.toNat = n at h hc
    subst hc
    obtain ⟨h1, h2⟩ := h
    interval_cases n <;> rfl
  · have : c.toLower = c := by simp only [Char.toLower, if_neg h]
    rw [this, this]

theorem sampleLib_toLowerCase_idem (x : String) :
    sampleLib.toLowerCase (sampleLib.toLowerCase x) = sampleLib.toLowerCase x := by
  show String.mk ((String.mk (x.data.map Char.toLower)).data.map Char.toLower)
    = String.mk (x.data.map Char.toLower)
  simp [List.map_map, Function.comp_def, char_toLower_idem]

/-- C10: in every state of the collection reached from the empty one by requests to the
API (signup, update-profile and delete-account among them), no two users have emails that
are equal ignoring letter case.  `toLowerCase` is taken to be idempotent; the unique index
on `email` is on. -/
theorem emails_distinct_ignoring_case (L : Lib)
    (hidem : ∀ x, L.toLowerCase (L.toLowerCase x) = L.toLowerCase x)
    (trace : List (Env × ApiRequest)) :
    (run L emptyStore trace).users.Pairwise
      fun u v => L.toLowerCase u.email ≠ L.toLowerCase v.email := by
  obtain ⟨-, hem, hlow⟩ := run_wf L hidem trace emptyStore (emptyStore_wf L)
  rw [List.Nodup, List.pairwise_map] at hem
  refine List.Pairwise.imp_of_mem ?_ hem
  intro u v hu hv hne
  rw [hlow u hu, hlow v hv]
  exact hne

/-- Witness of C10: after the sample session the two stored emails differ ignoring case;
the update that asked for `BOB@example.com` was answered 400. -/
theorem emails_distinct_ignoring_case_witness :
    (run sampleLib emptyStore sampleSession).users.Pairwise
      (fun u v => sampleLib.toLowerCase u.email ≠ sampleLib.toLowerCase v.email) ∧
    (run sampleLib emptyStore sampleSession).users.map (·.email)
      = ["ann@example.com", "bob@example.com"] :=
  ⟨emails_distinct_ignoring_case sampleLib sampleLib_toLowerCase_idem sampleSession, by decide⟩

/-- C9: in every state of the collection reached from the empty one by requests to the
API, a signup request whose email equals, ignoring letter case, the email of a stored user
is answered 400 with `success` false, and the collection is unchanged.  `toLowerCase` is
taken to be idempotent, and an address `isEmail` accepts to have no surrounding white
space. -/
theorem signup_rejects_taken_email (L : Lib) (env : Env) (trace : List (Env × ApiRequest))
    (b : SignupBody) (e : String) (u : User)
    (hidem : ∀ x, L.toLowerCase (L.toLowerCase x) = L.toLowerCase x)
    (htrim : L.isEmail e = true → jsTrim e = e)
    (he : b.email = some e) (hu : u ∈ (run L emptyStore trace).users)
    (hcase : L.toLowerCase e = L.toLowerCase u.email) :
    ∃ r, signupRoute L env (run L emptyStore trace) b = (some r, run L emptyStore trace) ∧
      r.status = 400 ∧ r.success = false := by
  obtain ⟨-, -, hlow⟩ := run_wf L hidem trace emptyStore (emptyStore_wf L)
  generalize run L emptyStore trace = s at hu hlow ⊢
  unfold signupRoute
  rw [andThen_validation]
  by_cases hv : registerValidation L b = []
  · rw [if_pos hv]
    have hmail : L.isEmail e = true := by
      by_contra hc
      simp [registerValidation, check, fieldText, he, hc] at hv
    have hnorm : normalizeEmail L e = u.email := by
      unfold normalizeEmail
      rw [htrim hmail, hcase, hlow u hu]
    have hfound : ∃ d, s.findOne L b.email = some d := by
      unfold Store.findOne
      rw [he]
      dsimp only
      rw [hnorm]
      cases hf : s.users.find? (fun v => decide (v.email = u.email)) with
      | none =>
        rw [List.find?_eq_none] at hf
        exact absurd (hf u hu) (by simp)
      | some d => exact ⟨_, rfl⟩
    obtain ⟨d, hd⟩ := hfound
    refine ⟨{ status := 400, success := false, message := some "User already exists" },
      ?_, rfl, rfl⟩
    unfold signupHandler sends
    rw [hd]
  · rw [if_neg hv]
    exact ⟨_, rfl, rfl, rfl⟩

/-- Witness of C9: after the sample session, a signup with `Ann@Example.com`. -/
theorem signup_rejects_taken_email_witness :
    ∃ r, signupRoute sampleLib sampleEnv (run sampleLib emptyStore sampleSession) annAgainSignup
        = (some r, run sampleLib emptyStore sampleSession) ∧
      r.status = 400 ∧ r.success = false :=
  signup_rejects_taken_email sampleLib sampleEnv sampleSession annAgainSignup "Ann@Example.com"
    { _id := 7, name := "Ann", email := "ann@example.com", password := "saltsecret1",
      tasks := [{ _id := 120, title := "Buy milk", description := none, status := "pending",
                  dueDate := none, createdAt := 3000, updatedAt := 3000 }],
      settings := defaultSettings, createdAt := 1000, updatedAt := 3001 }
    sampleLib_toLowerCase_idem (fun _ => by decide) rfl (by decide) (by decide)

/-! ## Stored passwords -/

/-- The change-password route never answers 200 and never changes the collection: the
handler compares against a document loaded without its `password`. -/
theorem changePasswordRoute_unloaded (L : Lib) (env : Env) (s : Store)
    (req : Request PasswordBody) :
    (changePasswordRoute L env s req).2 = s ∧
    (changePasswordRoute L env s req).1.map (·.status) ≠ some 200 := by
  unfold changePasswordRoute
  rcases withUser_protect_cases L env s req.authorization
    (fun u => (handleValidationErrors (changePasswordValidation req.body)).andThen s
      (sends (changePasswordHandler L env s u req.id req.body))) with ⟨m, hm⟩ | ⟨id, u, -, -, hp⟩
  · rw [hm]; exact ⟨rfl, by simp [notAuthorized]⟩
  · rw [hp, andThen_validation]
    by_cases hv : changePasswordValidation req.body = []
    · rw [if_pos hv]
      obtain ⟨h1, h2⟩ := changePasswordHandler_unloaded L env s u.toDoc req.id req.body
      exact ⟨h1, by simpa [sends] using h2⟩
    · rw [if_neg hv]; exact ⟨rfl, by simp [validationFailedResponse]⟩

/-- C5 (the code at a failing input): a user signs up with `secret1` and then supplies
`secret9` as new password, with the right current password, in a request that passes the
validation chain.  The request is answered 500 and the stored password is still the hash
of `secret1`, not the hash of the plaintext last supplied.  No change-password request,
whatever it holds, changes the collection. -/
theorem new_password_is_not_stored :
    (∀ (L : Lib) (env : Env) (s : Store) (req : Request PasswordBody),
      (changePasswordRoute L env s req).2 = s) ∧
    ((run sampleLib emptyStore (passwordSession.take 1)).lookup 7).map (·.password) =
      some (sampleLib.bcryptHash "secret1" "salt") ∧
    rightCurrent.body = { currentPassword := some "secret1", newPassword := some "secret9" } ∧
    changePasswordValidation rightCurrent.body = [] ∧
    (serve sampleLib env3 (run sampleLib emptyStore (passwordSession.take 1))
      (.changePassword rightCurrent)).1 = some (errorHandler illegalArguments) ∧
    (errorHandler illegalArguments).status = 500 ∧
    ((run sampleLib emptyStore passwordSession).lookup 7).map (·.password) =
      some (sampleLib.bcryptHash "secret1" "salt") ∧
    sampleLib.bcryptHash "secret9" "salt" ≠ sampleLib.bcryptHash "secret1" "salt" ∧
    ((run sampleLib emptyStore passwordSession).lookup 7).map
      (fun u => sampleLib.bcryptCompare "secret9" u.password) = some false :=
  ⟨fun L env s req => (changePasswordRoute_unloaded L env s req).1,
   by decide, by decide, by decide, by decide, by decide, by decide, by decide, by decide⟩

/-! ## The gate ends in exactly one way -/

/-- C26: for every request `protect` either calls `next` exactly once and sends nothing, or
sends exactly one response, with status 401, and does not call `next`. -/
theorem protect_next_or_401 (L : Lib) (env : Env) (s : Store) (authorization : Option String) :
    ((protect L env s authorization).nextCalls = 1 ∧ (protect L env s authorization).sent = []) ∨
    ((protect L env s authorization).nextCalls = 0 ∧
      ∃ r, (protect L env s authorization).sent = [r] ∧ r.status = 401) := by
  rcases protect_cases L env s authorization with ⟨m, hm⟩ | ⟨id, u, -, hp⟩
  · rw [hm]; exact Or.inr ⟨rfl, _, rfl, rfl⟩
  · rw [hp]; exact Or.inl ⟨rfl, rfl⟩

/-! ## Order of the gate and the validation chain -/

/-- C21 (amended): on the four routes that have both, `protect` runs before the validation
chain.  When `protect` rejects the request, its 401 is the response whatever the body
holds; a body that violates a field rule is answered 400 by the validation chain once
`protect` has accepted the caller. -/
theorem protect_runs_before_validation (L : Lib) (env : Env) (s : Store)
    (authorization : Option String) (id taskId : ObjectId) :
    (∀ m, protect L env s authorization = { sent := [notAuthorized m], nextCalls := 0 } →
      (∀ b, updateUserRoute L env s ⟨authorization, id, taskId, b⟩ = (some (notAuthorized m), s)) ∧
      (∀ b, changePasswordRoute L env s ⟨authorization, id, taskId, b⟩
        = (some (notAuthorized m), s)) ∧
      (∀ b, createTaskRoute L env s ⟨authorization, id, taskId, b⟩ = (some (notAuthorized m), s)) ∧
      (∀ b, updateTaskRoute L env s ⟨authorization, id, taskId, b⟩
        = (some (notAuthorized m), s))) ∧
    (∀ caller, authenticatedAs L env s authorization caller →
      (∀ b, updateUserValidation L b ≠ [] →
        updateUserRoute L env s ⟨authorization, id, taskId, b⟩
          = (some (validationFailedResponse (updateUserValidation L b)), s)) ∧
      (∀ b, changePasswordValidation b ≠ [] →
        changePasswordRoute L env s ⟨authorization, id, taskId, b⟩
          = (some (validationFailedResponse (changePasswordValidation b)), s)) ∧
      (∀ b, createTaskValidation L b ≠ [] →
        createTaskRoute L env s ⟨authorization, id, taskId, b⟩
          = (some (validationFailedResponse (createTaskValidation L b)), s)) ∧
      (∀ b, updateTaskValidation L b ≠ [] →
        updateTaskRoute L env s ⟨authorization, id, taskId, b⟩
          = (some (validationFailedResponse (updateTaskValidation L b)), s))) := by
  constructor
  · intro m hm
    refine ⟨fun b => ?_, fun b => ?_, fun b => ?_, fun b => ?_⟩
    · simp only [updateUserRoute, hm]; rfl
    · simp only [changePasswordRoute, hm]; rfl
    · simp only [createTaskRoute, hm]; rfl
    · simp only [updateTaskRoute, hm]; rfl
  · intro caller hauth
    obtain ⟨u, -, hp⟩ := hauth
    refine ⟨fun b hv => ?_, fun b hv => ?_, fun b hv => ?_, fun b hv => ?_⟩
    · simp only [updateUserRoute, hp, withUser_pass, andThen_validation, if_neg hv]
    · simp only [changePasswordRoute, hp, withUser_pass, andThen_validation, if_neg hv]
    · simp only [createTaskRoute, hp, withUser_pass, andThen_validation, if_neg hv]
    · simp only [updateTaskRoute, hp, withUser_pass, andThen_validation, if_neg hv]

/-- C21 (amended) at sample inputs: without a header every body gets the 401 of `protect`;
with the token of the first sample user, a create-task body without a title gets the 400 of the chain. -/
theorem protect_runs_before_validation_witness :
    (∀ b, createTaskRoute sampleLib sampleEnv sampleStore ⟨none, 7, 101, b⟩
      = (some (notAuthorized "Not authorized, no token"), sampleStore)) ∧
    createTaskRoute sampleLib sampleEnv sampleStore ⟨some "Bearer token7", 7, 101, untitledCreate.body⟩
      = (some (validationFailedResponse (createTaskValidation sampleLib untitledCreate.body)),
         sampleStore) :=
  ⟨((protect_runs_before_validation sampleLib sampleEnv sampleStore none 7 101).1
      "Not authorized, no token" rfl).2.2.1,
   ((protect_runs_before_validation sampleLib sampleEnv sampleStore (some "Bearer token7") 7
      101).2 7 ⟨ann, by decide, by decide⟩).2.2.1 untitledCreate.body (by decide)⟩

/-- C21 as stated fails: a create-task request whose body violates two field rules and
which has no Authorization header is answered 401 by `protect`, not 400 by validation. -/
theorem invalid_body_without_token_gets_401 :
    createTaskValidation sampleLib anonymousUntitled.body =
      [{ param := "title", msg := "Task title is required" },
       { param := "status", msg := "Invalid task status" }] ∧
    createTaskRoute sampleLib sampleEnv sampleStore anonymousUntitled =
      (some { status := 401, success := false, message := some "Not authorized, no token" },
       sampleStore) := by
  decide

/-! ## The error middleware -/

/-- C22 (amended): the response of the error middleware has `success` false; its status is
the `statusCode` of the error when the error has a non-zero one and 500 otherwise; its
message is the message of the error, and the generic `Server Error` only when the error
has an empty message. -/
theorem errorHandler_shows_error (err : JsError) :
    (errorHandler err).success = false ∧
    (err.statusCode = none ∨ err.statusCode = some 0 → (errorHandler err).status = 500) ∧
    (∀ c, err.statusCode = some (c + 1) → (errorHandler err).status = c + 1) ∧
    (err.message ≠ "" → (errorHandler err).message = some err.message) ∧
    (err.message = "" → (errorHandler err).message = some "Server Error") := by
  refine ⟨rfl, ?_, ?_, ?_, ?_⟩
  · rintro (h | h) <;> simp [errorHandler, h]
  · intro c h; simp [errorHandler, h]
  · intro h; simp [errorHandler, h]
  · intro h; simp [errorHandler, h]

/-- C22 as stated fails: the two errors the sample requests forward to the error
middleware give responses with the messages of the errors, which differ. -/
theorem errorHandler_message_depends_on_error :
    (createTaskRoute sampleLib sampleEnv sampleStore blankCreate).1 =
      some (errorHandler (validationFailed ["tasks.2.title: Task title is required"])) ∧
    (changePasswordRoute sampleLib sampleEnv sampleStore wrongCurrent).1 =
      some (errorHandler illegalArguments) ∧
    (errorHandler (validationFailed ["tasks.2.title: Task title is required"])).message =
      some "User validation failed: tasks.2.title: Task title is required" ∧
    (errorHandler illegalArguments).message = some "Illegal arguments: string, undefined" ∧
    errorHandler { statusCode := some 400, message := "Unexpected token in JSON" } =
      { status := 400, success := false, message := some "Unexpected token in JSON" } := by
  decide

/-! ## Code at failing inputs -/

/-- C23 (the code at a failing input): an update-profile request served at clock reading
5000 is answered 200 and changes the name, and the user's `updatedAt` stays 3000:
`findByIdAndUpdate` runs no `save` hook.  A create-task request served with the same
readings does set it, to the reading of the hook. -/
theorem updateProfile_leaves_updatedAt :
    (updateUserRoute sampleLib sampleEnv sampleStore renameAnn).1.map (·.status) = some 200 ∧
    ((updateUserRoute sampleLib sampleEnv sampleStore renameAnn).2.lookup 7).map
      (fun u => (u.name, u.updatedAt)) = some ("Ann B", 3000) ∧
    (sampleStore.lookup 7).map (fun u => (u.name, u.updatedAt)) = some ("Ann", 3000) ∧
    sampleEnv.handlerNow = 5000 ∧ sampleEnv.saveNow = 5001 ∧
    (createTaskRoute sampleLib sampleEnv sampleStore breadCreate).1.map (·.status) = some 201 ∧
    ((createTaskRoute sampleLib sampleEnv sampleStore breadCreate).2.lookup 7).map (·.updatedAt)
      = some 5001 := by
  decide

/-- C25 (the code at a failing input): after a signup, two create-task requests and an
update-task request whose body names the `_id` of the other task, all answered with
success, the two tasks of the user carry the same id. -/
theorem task_ids_not_distinct :
    ((run sampleLib emptyStore (twinSession.take 3)).tasksOf 7).map (fun t => (t._id, t.title))
      = [(120, "Buy milk"), (121, "Write report")] ∧
    (updateTaskRoute sampleLib laterEnv (run sampleLib emptyStore (twinSession.take 3))
        { authorization := some "Bearer token7", id := 7, taskId := 121,
          body := { _id := some 120 } }).1.map (·.status) = some 200 ∧
    ((run sampleLib emptyStore twinSession).tasksOf 7).map (fun t => (t._id, t.title))
      = [(120, "Buy milk"), (120, "Write report")] ∧
    ¬ (((run sampleLib emptyStore twinSession).tasksOf 7).map (·._id)).Nodup := by
  decide

/-- Whatever the library, once `isISO8601` rejects the empty string a task body with
`dueDate: ''` fails both task chains: `optional()` skips a field only when it is
`undefined`. -/
theorem empty_dueDate_fails_validation (L : Lib) (b : TaskBody) (hiso : L.isISO8601 "" = false)
    (hb : b.dueDate = some "") :
    { param := "dueDate", msg := "Invalid due date format" } ∈ createTaskValidation L b ∧
    { param := "dueDate", msg := "Invalid due date format" } ∈ updateTaskValidation L b := by
  constructor
  · simp [createTaskValidation, checkOptional, check, hb, hiso]
  · simp [updateTaskValidation, checkOptional, check, hb, hiso]

/-- C28 (the code at a failing input): the body the task form sends when only the title is
filled in fails `createTaskValidation` and `updateTaskValidation` on `dueDate`; the create
and the edit of the form are answered 400 and the store is unchanged. -/
theorem form_body_fails_validation :
    createTaskValidation sampleLib formBody =
      [{ param := "dueDate", msg := "Invalid due date format" }] ∧
    updateTaskValidation sampleLib formBody =
      [{ param := "dueDate", msg := "Invalid due date format" }] ∧
    createTaskRoute sampleLib sampleEnv sampleStore ⟨some "Bearer token7", 7, 0, formBody⟩ =
      (some { status := 400, success := false, message := some "Validation failed",
              errors := some [("dueDate", "Invalid due date format")] }, sampleStore) ∧
    updateTaskRoute sampleLib sampleEnv sampleStore ⟨some "Bearer token7", 7, 101, formBody⟩ =
      (some { status := 400, success := false, message := some "Validation failed",
              errors := some [("dueDate", "Invalid due date format")] }, sampleStore) := by
  decide

/-! ## The 404 of a missing user -/

theorem lookup_of_owner {s : Store} {id' id : ObjectId} {u : User}
    (hu : s.lookup id' = some u) (h : u.toDoc._id = id) : s.lookup id = some u := by
  have h1 : u._id = id' := lookup_id hu
  have h2 : u._id = id := h
  rw [← h2, h1]; exact hu

theorem getUserHandler_found {s : Store} {id' : ObjectId} {u : User}
    (hu : s.lookup id' = some u) (id : ObjectId) :
    (getUserHandler s u.toDoc id).1 ≠ userNotFound := by
  unfold getUserHandler
  by_cases h : u.toDoc._id = id
  · simp [h, lookup_of_owner hu h, userNotFound]
  · simp [h, forbidden, userNotFound]

theorem updateUserHandler_found {s : Store} {id' : ObjectId} {u : User}
    (hu : s.lookup id' = some u) (L : Lib) (id : ObjectId) (b : ProfileBody) :
    (updateUserHandler L s u.toDoc id b).1 ≠ userNotFound := by
  unfold updateUserHandler
  by_cases h : u.toDoc._id = id
  · simp only [ne_eq, h, not_true_eq_false, if_false, lookup_of_owner hu h]
    cases validateProfile L b with
    | cons e es => simp [errorHandler, userNotFound]
    | nil =>
      dsimp only
      split <;> simp [userNotFound]
  · simp [h, forbidden, userNotFound]

theorem changePasswordHandler_found {s : Store} {id' : ObjectId} {u : User}
    (hu : s.lookup id' = some u) (L : Lib) (env : Env) (id : ObjectId) (b : PasswordBody) :
    (changePasswordHandler L env s u.toDoc id b).1 ≠ userNotFound := by
  unfold changePasswordHandler
  by_cases h : u.toDoc._id = id
  · simp only [ne_eq, h, not_true_eq_false, if_false, findById_eq (lookup_of_owner hu h)]
    cases b.currentPassword <;>
      simp [comparePassword, User.toDoc, errorHandler, userNotFound]
  · simp [h, forbidden, userNotFound]

theorem deleteUserHandler_found {s : Store} {id' : ObjectId} {u : User}
    (hu : s.lookup id' = some u) (id : ObjectId) :
    (deleteUserHandler s u.toDoc id).1 ≠ userNotFound := by
  unfold deleteUserHandler
  by_cases h : u.toDoc._id = id
  · simp [h, lookup_of_owner hu h, userNotFound]
  · simp [h, forbidden, userNotFound]

theorem getTasksHandler_found {s : Store} {id' : ObjectId} {u : User}
    (hu : s.lookup id' = some u) (id : ObjectId) :
    (getTasksHandler s u.toDoc id).1 ≠ userNotFound := by
  unfold getTasksHandler
  by_cases h : u.toDoc._id = id
  · simp [h, findById_eq (lookup_of_owner hu h), userNotFound]
  · simp [h, forbidden, userNotFound]

theorem createTaskHandler_found {s : Store} {id' : ObjectId} {u : User}
    (hu : s.lookup id' = some u) (L : Lib) (env : Env) (id : ObjectId) (b : TaskBody) :
    (createTaskHandler L env s u.toDoc id b).1 ≠ userNotFound := by
  unfold createTaskHandler
  by_cases h : u.toDoc._id = id
  · simp only [ne_eq, h, not_true_eq_false, if_false, findById_eq (lookup_of_owner hu h)]
    split <;> simp [errorHandler, validationFailed, userNotFound]
  · simp [h, forbidden, userNotFound]

theorem updateTaskHandler_found {s : Store} {id' : ObjectId} {u : User}
    (hu : s.lookup id' = some u) (L : Lib) (env : Env) (id taskId : ObjectId) (b : TaskBody) :
    (updateTaskHandler L env s u.toDoc id taskId b).1 ≠ userNotFound := by
  unfold updateTaskHandler
  by_cases h : u.toDoc._id = id
  · simp only [ne_eq, h, not_true_eq_false, if_false, findById_eq (lookup_of_owner hu h)]
    cases checkTaskOwnership u.toDoc taskId with
    | none => simp [taskNotFound, userNotFound]
    | some task =>
      dsimp only
      split <;> simp [errorHandler, validationFailed, userNotFound]
  · simp [h, forbidden, userNotFound]

theorem deleteTaskHandler_found {s : Store} {id' : ObjectId} {u : User}
    (hu : s.lookup id' = some u) (env : Env) (id taskId : ObjectId) :
    (deleteTaskHandler env s u.toDoc id taskId).1 ≠ userNotFound := by
  unfold deleteTaskHandler
  by_cases h : u.toDoc._id = id
  · simp only [ne_eq, h, not_true_eq_false, if_false, findById_eq (lookup_of_owner hu h)]
    cases checkTaskOwnership u.toDoc taskId with
    | none => simp [taskNotFound, userNotFound]
    | some task => simp [userNotFound]
  · simp [h, forbidden, userNotFound]

theorem route_found (L : Lib) (env : Env) (s : Store) (a : Option String)
    (handler : UserDoc → Outcome)
    (hh : ∀ id u, s.lookup id = some u → (handler u.toDoc).1 ≠ some userNotFound) :
    (withUser (protect L env s a) s handler).1 ≠ some userNotFound := by
  rcases withUser_protect_cases L env s a handler with ⟨m, hm⟩ | ⟨id, u, hu, -, hp⟩
  · rw [hm]; simp [notAuthorized, userNotFound]
  · rw [hp]; exact hh id u hu

theorem validated_found (errors : List ValidationError) (s : Store) (r : Response × Store)
    (hr : r.1 ≠ userNotFound) :
    ((handleValidationErrors errors).andThen s (sends r)).1 ≠ some userNotFound := by
  rw [andThen_validation]
  by_cases h : errors = []
  · rw [if_pos h]; simpa [sends] using hr
  · rw [if_neg h]; simp [validationFailedResponse, userNotFound]

/-- C29: served from a store as it stands, no `/api/users/:id` route answers with the
404 `User not found` of its handler: when `protect` has called `next` and the ownership check
passes, the lookup by the path id finds the very user `protect` loaded, so each of the eight
routes ends in some other response. -/
theorem user_not_found_unreachable (L : Lib) (env : Env) (s : Store) :
    (∀ (a : Option String) (d : UserDoc) (id : ObjectId),
      protect L env s a = { sent := [], nextCalls := 1, reqUser := some d } → d._id = id →
      ∃ u, s.lookup id = some u ∧ u.toDoc = d) ∧
    (∀ req, (getUserRoute L env s req).1 ≠ some userNotFound) ∧
    (∀ req, (updateUserRoute L env s req).1 ≠ some userNotFound) ∧
    (∀ req, (changePasswordRoute L env s req).1 ≠ some userNotFound) ∧
    (∀ req, (deleteUserRoute L env s req).1 ≠ some userNotFound) ∧
    (∀ req, (getTasksRoute L env s req).1 ≠ some userNotFound) ∧
    (∀ req, (createTaskRoute L env s req).1 ≠ some userNotFound) ∧
    (∀ req, (updateTaskRoute L env s req).1 ≠ some userNotFound) ∧
    (∀ req, (deleteTaskRoute L env s req).1 ≠ some userNotFound) := by
  refine ⟨?_, ?_, ?_, ?_, ?_, ?_, ?_, ?_, ?_⟩
  · intro a d id hp hd
    rcases protect_cases L env s a with ⟨m, hm⟩ | ⟨id', u, hu, hq⟩
    · rw [hm] at hp
      exact absurd (congrArg Effects.nextCalls hp) (by simp)
    · rw [hq] at hp
      have hdoc : u.toDoc = d := by
        have := congrArg Effects.reqUser hp
        simpa using this
      exact ⟨u, lookup_of_owner hu (by rw [hdoc]; exact hd), hdoc⟩
  · intro req
    exact route_found L env s _ _ fun _ _ hu => by
      simpa [sends] using getUserHandler_found hu req.id
  · intro req
    exact route_found L env s _ _ fun _ _ hu =>
      validated_found _ s _ (updateUserHandler_found hu L req.id req.body)
  · intro req
    exact route_found L env s _ _ fun _ _ hu =>
      validated_found _ s _ (changePasswordHandler_found hu L env req.id req.body)
  · intro req
    exact route_found L env s _ _ fun _ _ hu => by
      simpa [sends] using deleteUserHandler_found hu req.id
  · intro req
    exact route_found L env s _ _ fun _ _ hu => by
      simpa [sends] using getTasksHandler_found hu req.id
  · intro req
    exact route_found L env s _ _ fun _ _ hu =>
      validated_found _ s _ (createTaskHandler_found hu L env req.id req.body)
  · intro req
    exact route_found L env s _ _ fun _ _ hu =>
      validated_found _ s _ (updateTaskHandler_found hu L env req.id req.taskId req.body)
  · intro req
    exact route_found L env s _ _ fun _ _ hu => by
      simpa [sends] using deleteTaskHandler_found hu env req.id req.taskId

/-! ## Update profile -/

theorem updateUserHandler_updated {L : Lib} {s s' : Store} {u : UserDoc} {id : ObjectId}
    {b : ProfileBody} {r : Response}
    (h : updateUserHandler L s u id b = (r, s')) (hok : r.status = 200) :
    ∃ user, s.lookup id = some user ∧
      s' = { users := updateOne id (fun v => applyProfile L v b) s.users } ∧
      r.user = some (profileView (applyProfile L user b)) := by
  unfold updateUserHandler at h
  by_cases hid : u._id = id
  · simp only [ne_eq, hid, not_true_eq_false, if_false] at h
    cases hv : validateProfile L b with
    | cons e es =>
      rw [hv] at h
      simp only [Prod.mk.injEq] at h
      rw [← h.1] at hok
      simp [errorHandler] at hok
    | nil =>
      rw [hv] at h
      cases hl : s.lookup id with
      | none =>
        rw [hl] at h
        simp only [Prod.mk.injEq] at h
        rw [← h.1] at hok; cases hok
      | some user =>
        rw [hl] at h
        dsimp only at h
        split at h
        · simp only [Prod.mk.injEq] at h
          rw [← h.1] at hok; cases hok
        · simp only [Prod.mk.injEq] at h
          exact ⟨user, rfl, h.2.symm, by rw [← h.1]⟩
  · simp only [ne_eq, hid, not_false_eq_true, if_true, Prod.mk.injEq] at h
    rw [← h.1] at hok; cases hok

/-- What a 200 from the update-profile route means: the document with the path id was
replaced in place by the result of the update, and the response shows it. -/
theorem updateUserRoute_success {L : Lib} {env : Env} {s s' : Store} {req : Request ProfileBody}
    {r : Response} (h : updateUserRoute L env s req = (some r, s')) (hok : r.status = 200) :
    ∃ (pre post : List User) (old : User),
      s.users = pre ++ old :: post ∧ (∀ v ∈ pre, v._id ≠ req.id) ∧ old._id = req.id ∧
      s'.users = pre ++ applyProfile L old req.body :: post ∧
      r.user = some (profileView (applyProfile L old req.body)) := by
  unfold updateUserRoute at h
  rcases withUser_protect_cases L env s req.authorization _ with ⟨m, hm⟩ | ⟨id, u, hu, -, hp⟩
  · rw [hm] at h
    simp only [Prod.mk.injEq, Option.some.injEq] at h
    rw [← h.1] at hok; cases hok
  · rw [hp, andThen_validation] at h
    by_cases hv : updateUserValidation L req.body = []
    · rw [if_pos hv] at h
      simp only [sends, Prod.mk.injEq, Option.some.injEq] at h
      have hh : updateUserHandler L s u.toDoc req.id req.body = (r, s') := Prod.ext h.1 h.2
      obtain ⟨old, hl, hs', hr⟩ := updateUserHandler_updated hh hok
      obtain ⟨pre, post, h1, h2, h3, -⟩ := lookup_split req.id s.users hl
      refine ⟨pre, post, old, h1, h2, h3, ?_, hr⟩
      rw [hs']
      show updateOne req.id (fun v => applyProfile L v req.body) s.users = _
      rw [h1]
      exact updateOne_split req.id (fun v => applyProfile L v req.body) pre post old h2 h3
    · rw [if_neg hv] at h
      simp only [Prod.mk.injEq, Option.some.injEq] at h
      rw [← h.1] at hok; cases hok

/-- C27 (amended): after a successful update-profile request the collection is the previous
one with the addressed record replaced in place.  In that record a name or an email the
body lacks keeps its prior value (a provided name is stored trimmed, a provided email
normalised), and without a settings object the settings stay as they were; a settings
object replaces the stored one, so each settings field it lacks reads back as its schema
default.  The password and the tasks are unchanged. -/
theorem updateProfile_keeps_absent_fields (L : Lib) (env : Env) (s s' : Store)
    (req : Request ProfileBody) (r : Response)
    (hupdate : updateUserRoute L env s req = (some r, s')) (hok : r.status = 200) :
    ∃ (pre post : List User) (old new : User),
      s.users = pre ++ old :: post ∧ (∀ v ∈ pre, v._id ≠ req.id) ∧ old._id = req.id ∧
      s'.users = pre ++ new :: post ∧
      new.name = (req.body.name.map jsTrim).getD old.name ∧
      new.email = (req.body.email.map (normalizeEmail L)).getD old.email ∧
      (req.body.settings = none → new.settings = old.settings) ∧
      (∀ st, req.body.settings = some st →
        new.settings = { notificationEmail := st.notificationEmail.getD "daily"
                         theme := st.theme.getD "light"
                         defaultTaskStatus := st.defaultTaskStatus.getD "pending" }) ∧
      new.password = old.password ∧ new.tasks = old.tasks := by
  obtain ⟨pre, post, old, h1, h2, h3, h4, -⟩ := updateUserRoute_success hupdate hok
  refine ⟨pre, post, old, applyProfile L old req.body, h1, h2, h3, h4, ?_, ?_, ?_, ?_,
    rfl, rfl⟩
  · cases hn : req.body.name <;> simp [applyProfile, hn]
  · cases he : req.body.email <;> simp [applyProfile, he]
  · intro hs; simp [applyProfile, hs]
  · intro st hs; simp [applyProfile, hs]

/-- C27, counterexample: the first sample user stores all three settings, as the settings form sends
them, then sends a settings object with `notificationEmail` only.  Both requests are
answered 200, and afterwards the stored theme and default task status are back at `light`
and `pending`, not the `dark` and `in-progress` stored before. -/
theorem partial_settings_reset_the_others :
    (serve sampleLib sampleEnv sampleStore (.updateUser allSettings)).1.map (·.status) =
      some 200 ∧
    (((serve sampleLib sampleEnv sampleStore (.updateUser allSettings)).2.lookup 7).map
      (·.settings)) =
      some { notificationEmail := "weekly", theme := "dark", defaultTaskStatus := "in-progress" } ∧
    (serve sampleLib laterEnv (serve sampleLib sampleEnv sampleStore (.updateUser allSettings)).2
      (.updateUser oneSetting)).1.map (·.status) = some 200 ∧
    (((run sampleLib sampleStore
        [(sampleEnv, .updateUser allSettings), (laterEnv, .updateUser oneSetting)]).lookup 7).map
      (·.settings)) =
      some { notificationEmail := "none", theme := "light", defaultTaskStatus := "pending" } := by
  decide

theorem updateProfile_keeps_absent_fields_witness :
    updateUserRoute sampleLib sampleEnv sampleStore renameAnn =
      (some renamedResponse, renamedStore) ∧
    renamedResponse.status = 200 ∧
    ∃ (pre post : List User) (old new : User),
      sampleStore.users = pre ++ old :: post ∧ (∀ v ∈ pre, v._id ≠ renameAnn.id) ∧
      old._id = renameAnn.id ∧
      renamedStore.users = pre ++ new :: post ∧
      new.name = (renameAnn.body.name.map jsTrim).getD old.name ∧
      new.email = (renameAnn.body.email.map (normalizeEmail sampleLib)).getD old.email ∧
      (renameAnn.body.settings = none → new.settings = old.settings) ∧
      (∀ st, renameAnn.body.settings = some st →
        new.settings = { notificationEmail := st.notificationEmail.getD "daily"
                         theme := st.theme.getD "light"
                         defaultTaskStatus := st.defaultTaskStatus.getD "pending" }) ∧
      new.password = old.password ∧ new.tasks = old.tasks :=
  ⟨by decide, by decide,
    updateProfile_keeps_absent_fields sampleLib sampleEnv sampleStore renamedStore renameAnn
      renamedResponse (by decide) (by decide)⟩

/-! ## The schema constraints on stored tasks -/

theorem length_le_jsLength (x : String) : x.length ≤ jsLength x := by
  show x.data.length ≤ (x.data.map fun c => if 0x10000 ≤ c.toNat then 2 else 1).sum
  induction x.data with
  | nil => simp
  | cons c cs ih =>
    simp only [List.length_cons, List.map_cons, List.sum_cons]
    split <;> omega

theorem pathError_nil {idx : Nat} {path : String} {e : Option String}
    (h : pathError idx path e = []) : e = none := by
  cases e with
  | none => rfl
  | some m => simp [pathError] at h

theorem titleError_none {title : String} (h : titleError title = none) :
    title ≠ "" ∧ jsLength title ≤ 100 := by
  unfold titleError at h
  by_cases h1 : title = ""
  · simp [h1] at h
  · by_cases h2 : 100 < jsLength title
    · simp [h1, h2] at h
    · exact ⟨h1, Nat.le_of_not_lt h2⟩

theorem descriptionError_none {description : Option String}
    (h : descriptionError description = none) :
    ∀ d, description = some d → jsLength d ≤ 500 := by
  intro d hd
  subst hd
  unfold descriptionError at h
  by_cases h2 : 500 < jsLength d
  · simp [h2] at h
  · exact Nat.le_of_not_lt h2

theorem statusError_none {status : String} (h : statusError status = none) :
    status ∈ taskStatuses := by
  unfold statusError at h
  by_cases h1 : status ∈ taskStatuses
  · exact h1
  · simp [h1] at h

theorem validateNewTask_valid {idx : Nat} {t : Task} (h : validateNewTask idx t = []) :
    t.Valid := by
  unfold validateNewTask at h
  simp only [List.append_eq_nil] at h
  obtain ⟨⟨ht, hd⟩, hs⟩ := h
  obtain ⟨h1, h2⟩ := titleError_none (pathError_nil ht)
  exact ⟨h1, h2, descriptionError_none (pathError_nil hd), statusError_none (pathError_nil hs)⟩

theorem validateModifiedTask_valid {idx : Nat} {old new : Task}
    (h : validateModifiedTask idx old new = []) (hold : old.Valid) : new.Valid := by
  unfold validateModifiedTask at h
  simp only [List.append_eq_nil] at h
  obtain ⟨⟨ht, hd⟩, hs⟩ := h
  obtain ⟨o1, o2, o3, o4⟩ := hold
  have htitle : new.title ≠ "" ∧ jsLength new.title ≤ 100 := by
    by_cases e : new.title = old.title
    · rw [e]; exact ⟨o1, o2⟩
    · rw [if_neg e] at ht
      exact titleError_none (pathError_nil ht)
  have hdesc : ∀ d, new.description = some d → jsLength d ≤ 500 := by
    by_cases e : new.description = old.description
    · rw [e]; exact o3
    · rw [if_neg e] at hd
      exact descriptionError_none (pathError_nil hd)
  have hstatus : new.status ∈ taskStatuses := by
    by_cases e : new.status = old.status
    · rw [e]; exact o4
    · rw [if_neg e] at hs
      exact statusError_none (pathError_nil hs)
  exact ⟨htitle.1, htitle.2, hdesc, hstatus⟩

theorem mem_replaceTask {taskId : ObjectId} {new t : Task} {ts : List Task}
    (h : t ∈ replaceTask taskId new ts) : t ∈ ts ∨ t = new := by
  induction ts with
  | nil => simp [replaceTask] at h
  | cons x xs ih =>
    by_cases hx : x._id = taskId
    · simp only [replaceTask, if_pos hx, List.mem_cons] at h
      rcases h with h | h
      · exact Or.inr h
      · exact Or.inl (List.mem_cons_of_mem _ h)
    · simp only [replaceTask, if_neg hx, List.mem_cons] at h
      rcases h with h | h
      · exact Or.inl (h ▸ List.mem_cons_self _ _)
      · rcases ih h with h | h
        · exact Or.inl (List.mem_cons_of_mem _ h)
        · exact Or.inr h

theorem saveTasks_valid {s : Store} (env : Env) (id : ObjectId) {ts : List Task}
    (hs : s.TasksValid) (hts : ∀ t ∈ ts, t.Valid) : (s.saveTasks env id ts).TasksValid := by
  intro v hv t ht
  rcases mem_updateOne hv with hv | ⟨w, -, rfl⟩
  · exact hs v hv t ht
  · exact hts t ht

theorem lookup_mem {s : Store} {id : ObjectId} {u : User} (h : s.lookup id = some u) :
    u ∈ s.users :=
  List.mem_of_find?_eq_some h

theorem createTaskHandler_valid (L : Lib) (env : Env) (s : Store) (u : UserDoc) (id : ObjectId)
    (b : TaskBody) (hs : s.TasksValid) : (createTaskHandler L env s u id b).2.TasksValid := by
  unfold createTaskHandler
  split
  · exact hs
  · cases hl : s.lookup id with
    | none => rw [findById_none hl]; exact hs
    | some user =>
      rw [findById_eq hl]
      dsimp only
      cases hv : validateNewTask user.toDoc.tasks.length (newTask L env b) with
      | cons e es => exact hs
      | nil =>
        refine saveTasks_valid env id hs fun t ht => ?_
        rcases List.mem_append.1 ht with ht | ht
        · exact hs user (lookup_mem hl) t ht
        · rw [List.mem_singleton.1 ht]
          exact validateNewTask_valid hv

theorem updateTaskHandler_valid (L : Lib) (env : Env) (s : Store) (u : UserDoc)
    (id taskId : ObjectId) (b : TaskBody) (hs : s.TasksValid) :
    (updateTaskHandler L env s u id taskId b).2.TasksValid := by
  unfold updateTaskHandler
  split
  · exact hs
  · cases hl : s.lookup id with
    | none => rw [findById_none hl]; exact hs
    | some user =>
      rw [findById_eq hl]
      dsimp only
      cases hf : checkTaskOwnership user.toDoc taskId with
      | none => exact hs
      | some task =>
        dsimp only
        have htask : task.Valid :=
          hs user (lookup_mem hl) task (List.mem_of_find?_eq_some hf)
        cases hv : validateModifiedTask
            (user.toDoc.tasks.findIdx fun t => decide (t._id = taskId))
            task (assignTask L env task b) with
        | cons e es => exact hs
        | nil =>
          refine saveTasks_valid env id hs fun t ht => ?_
          rcases mem_replaceTask ht with ht | ht
          · exact hs user (lookup_mem hl) t ht
          · rw [ht]; exact validateModifiedTask_valid hv htask

theorem deleteTaskHandler_valid (env : Env) (s : Store) (u : UserDoc) (id taskId : ObjectId)
    (hs : s.TasksValid) : (deleteTaskHandler env s u id taskId).2.TasksValid := by
  unfold deleteTaskHandler
  split
  · exact hs
  · cases hl : s.lookup id with
    | none => rw [findById_none hl]; exact hs
    | some user =>
      rw [findById_eq hl]
      dsimp only
      cases checkTaskOwnership user.toDoc taskId with
      | none => exact hs
      | some task =>
        refine saveTasks_valid env id hs fun t ht => ?_
        exact hs user (lookup_mem hl) t (List.mem_of_mem_filter ht)

theorem updateUserHandler_valid (L : Lib) (s : Store) (u : UserDoc) (id : ObjectId)
    (b : ProfileBody) (hs : s.TasksValid) : (updateUserHandler L s u id b).2.TasksValid := by
  unfold updateUserHandler
  split
  · exact hs
  · cases validateProfile L b with
    | cons e es => exact hs
    | nil =>
      dsimp only
      cases s.lookup id with
      | none => exact hs
      | some user =>
        dsimp only
        split
        · exact hs
        · intro v hv t ht
          rcases mem_updateOne hv with hv | ⟨w, hw, rfl⟩
          · exact hs v hv t ht
          · exact hs w hw t ht

theorem deleteUserHandler_valid (s : Store) (u : UserDoc) (id : ObjectId)
    (hs : s.TasksValid) : (deleteUserHandler s u id).2.TasksValid := by
  unfold deleteUserHandler
  split
  · exact hs
  · cases s.lookup id with
    | none => exact hs
    | some user =>
      intro v hv t ht
      exact hs v ((deleteOne_sublist id s.users).subset hv) t ht

/-- Every request keeps the schema constraints on the stored tasks. -/
theorem serve_tasksValid (L : Lib) (env : Env) (s : Store) (q : ApiRequest)
    (hs : s.TasksValid) : (serve L env s q).2.TasksValid := by
  cases q with
  | signup b =>
    rcases signupRoute_cases L env s b with ⟨r, h, -⟩ | ⟨r, h, -, -⟩
    · show (signupRoute L env s b).2.TasksValid
      rw [h]; exact hs
    · show (signupRoute L env s b).2.TasksValid
      rw [h]
      intro v hv t ht
      rcases List.mem_append.1 hv with hv | hv
      · exact hs v hv t ht
      · rw [List.mem_singleton.1 hv] at ht
        exact absurd ht (List.not_mem_nil _)
  | login b =>
    refine validation_store Store.TasksValid _ s _ hs ?_
    simp only [sends, loginHandler_store]; exact hs
  | getUser req =>
    refine withUser_store Store.TasksValid L env s _ _ hs fun u => ?_
    simp only [sends, getUserHandler_store]; exact hs
  | updateUser req =>
    refine withUser_store Store.TasksValid L env s _ _ hs fun u => ?_
    exact validation_store Store.TasksValid _ s _ hs (updateUserHandler_valid L s u _ _ hs)
  | changePassword req =>
    refine withUser_store Store.TasksValid L env s _ _ hs fun u => ?_
    refine validation_store Store.TasksValid _ s _ hs ?_
    simp only [sends, (changePasswordHandler_unloaded L env s u _ _).1]; exact hs
  | deleteUser req =>
    exact withUser_store Store.TasksValid L env s _ _ hs fun u =>
      deleteUserHandler_valid s u _ hs
  | getTasks req =>
    refine withUser_store Store.TasksValid L env s _ _ hs fun u => ?_
    simp only [sends, getTasksHandler_store]; exact hs
  | createTask req =>
    refine withUser_store Store.TasksValid L env s _ _ hs fun u => ?_
    exact validation_store Store.TasksValid _ s _ hs (createTaskHandler_valid L env s u _ _ hs)
  | updateTask req =>
    refine withUser_store Store.TasksValid L env s _ _ hs fun u => ?_
    exact validation_store Store.TasksValid _ s _ hs
      (updateTaskHandler_valid L env s u _ _ _ hs)
  | deleteTask req =>
    exact withUser_store Store.TasksValid L env s _ _ hs fun u =>
      deleteTaskHandler_valid env s u _ _ hs

theorem run_tasksValid (L : Lib) (trace : List (Env × ApiRequest)) (s : Store)
    (hs : s.TasksValid) : (run L s trace).TasksValid := by
  induction trace generalizing s with
  | nil => exact hs
  | cons x rest ih => exact ih _ (serve_tasksValid L x.1 s x.2 hs)

/-- C24: in every state of the collection reached from the empty one by requests to the
API, whatever the order and the bodies, every stored task has a title of 1 to 100
characters, a description, when it has one, of at most 500 characters, and a status among
`pending`, `in-progress` and `completed`.  The upper bounds hold for the UTF-16 length the
schema counts and hence for the number of characters. -/
theorem stored_tasks_satisfy_schema (L : Lib) (trace : List (Env × ApiRequest)) :
    ∀ u ∈ (run L emptyStore trace).users, ∀ t ∈ u.tasks,
      1 ≤ t.title.length ∧ t.title.length ≤ 100 ∧ jsLength t.title ≤ 100 ∧
      (∀ d, t.description = some d → d.length ≤ 500 ∧ jsLength d ≤ 500) ∧
      t.status ∈ ["pending", "in-progress", "completed"] := by
  intro u hu t ht
  have hempty : emptyStore.TasksValid := fun v hv => absurd hv (List.not_mem_nil _)
  obtain ⟨h1, h2, h3, h4⟩ := run_tasksValid L trace emptyStore hempty u hu t ht
  refine ⟨?_, le_trans (length_le_jsLength _) h2, h2, ?_, h4⟩
  · have : t.title.length ≠ 0 := fun h0 => h1 (String.ext (List.length_eq_zero.1 h0))
    omega
  · intro d hd
    exact ⟨le_trans (length_le_jsLength _) (h3 d hd), h3 d hd⟩

theorem stored_tasks_satisfy_schema_witness :
    (run sampleLib emptyStore twinSession).users.map (fun u => u.tasks.map (·.title)) =
      [["Buy milk", "Write report"]] ∧
    ∀ u ∈ (run sampleLib emptyStore twinSession).users, ∀ t ∈ u.tasks,
      1 ≤ t.title.length ∧ t.title.length ≤ 100 ∧ jsLength t.title ≤ 100 ∧
      (∀ d, t.description = some d → d.length ≤ 500 ∧ jsLength d ≤ 500) ∧
      t.status ∈ ["pending", "in-progress", "completed"] :=
  ⟨by decide, stored_tasks_satisfy_schema sampleLib twinSession⟩

/-! ## Where the `updatedAt` of a stored task comes from -/

theorem saveTasks_all {s : Store} {Q : Task → Prop} (env : Env) (id : ObjectId)
    {ts : List Task} (hs : s.allTasks Q) (hts : ∀ t ∈ ts, Q t) :
    (s.saveTasks env id ts).allTasks Q := by
  intro v hv t ht
  rcases mem_updateOne hv with hv | ⟨w, -, rfl⟩
  · exact hs v hv t ht
  · exact hts t ht

theorem createTaskHandler_all (Q : Task → Prop) (L : Lib) (env : Env) (s : Store) (u : UserDoc)
    (id : ObjectId) (b : TaskBody) (hs : s.allTasks Q) (hnew : Q (newTask L env b)) :
    (createTaskHandler L env s u id b).2.allTasks Q := by
  unfold createTaskHandler
  split
  · exact hs
  · cases hl : s.lookup id with
    | none => rw [findById_none hl]; exact hs
    | some user =>
      rw [findById_eq hl]
      dsimp only
      cases validateNewTask user.toDoc.tasks.length (newTask L env b) with
      | cons e es => exact hs
      | nil =>
        refine saveTasks_all env id hs fun t ht => ?_
        rcases List.mem_append.1 ht with ht | ht
        · exact hs user (lookup_mem hl) t ht
        · rw [List.mem_singleton.1 ht]; exact hnew

theorem updateTaskHandler_all (Q : Task → Prop) (L : Lib) (env : Env) (s : Store) (u : UserDoc)
    (id taskId : ObjectId) (b : TaskBody) (hs : s.allTasks Q)
    (hupd : ∀ t, Q (assignTask L env t b)) :
    (updateTaskHandler L env s u id taskId b).2.allTasks Q := by
  unfold updateTaskHandler
  split
  · exact hs
  · cases hl : s.lookup id with
    | none => rw [findById_none hl]; exact hs
    | some user =>
      rw [findById_eq hl]
      dsimp only
      cases checkTaskOwnership user.toDoc taskId with
      | none => exact hs
      | some task =>
        dsimp only
        cases validateModifiedTask
            (user.toDoc.tasks.findIdx fun t => decide (t._id = taskId))
            task (assignTask L env task b) with
        | cons e es => exact hs
        | nil =>
          refine saveTasks_all env id hs fun t ht => ?_
          rcases mem_replaceTask ht with ht | ht
          · exact hs user (lookup_mem hl) t ht
          · rw [ht]; exact hupd task

theorem deleteTaskHandler_all (Q : Task → Prop) (env : Env) (s : Store) (u : UserDoc)
    (id taskId : ObjectId) (hs : s.allTasks Q) :
    (deleteTaskHandler env s u id taskId).2.allTasks Q := by
  unfold deleteTaskHandler
  split
  · exact hs
  · cases hl : s.lookup id with
    | none => rw [findById_none hl]; exact hs
    | some user =>
      rw [findById_eq hl]
      dsimp only
      cases checkTaskOwnership user.toDoc taskId with
      | none => exact hs
      | some task =>
        refine saveTasks_all env id hs fun t ht => ?_
        exact hs user (lookup_mem hl) t (List.mem_of_mem_filter ht)

theorem updateUserHandler_all (Q : Task → Prop) (L : Lib) (s : Store) (u : UserDoc)
    (id : ObjectId) (b : ProfileBody) (hs : s.allTasks Q) :
    (updateUserHandler L s u id b).2.allTasks Q := by
  unfold updateUserHandler
  split
  · exact hs
  · cases validateProfile L b with
    | cons e es => exact hs
    | nil =>
      dsimp only
      cases s.lookup id with
      | none => exact hs
      | some user =>
        dsimp only
        split
        · exact hs
        · intro v hv t ht
          rcases mem_updateOne hv with hv | ⟨w, hw, rfl⟩
          · exact hs v hv t ht
          · exact hs w hw t ht

theorem deleteUserHandler_all (Q : Task → Prop) (s : Store) (u : UserDoc) (id : ObjectId)
    (hs : s.allTasks Q) : (deleteUserHandler s u id).2.allTasks Q := by
  unfold deleteUserHandler
  split
  · exact hs
  · cases s.lookup id with
    | none => exact hs
    | some user =>
      intro v hv t ht
      exact hs v ((deleteOne_sublist id s.users).subset hv) t ht

/-- A property of tasks that the tasks a request makes have is kept by every request. -/
theorem serve_allTasks (Q : Task → Prop) (L : Lib) (env : Env) (s : Store) (q : ApiRequest)
    (hs : s.allTasks Q) (hnew : ∀ b, Q (newTask L env b))
    (hupd : ∀ t b, Q (assignTask L env t b)) : (serve L env s q).2.allTasks Q := by
  cases q with
  | signup b =>
    show (signupRoute L env s b).2.allTasks Q
    rcases signupRoute_cases L env s b with ⟨r, h, -⟩ | ⟨r, h, -, -⟩
    · rw [h]; exact hs
    · rw [h]
      intro v hv t ht
      rcases List.mem_append.1 hv with hv | hv
      · exact hs v hv t ht
      · rw [List.mem_singleton.1 hv] at ht
        exact absurd ht (List.not_mem_nil _)
  | login b =>
    refine validation_store (Store.allTasks · Q) _ s _ hs ?_
    simp only [sends, loginHandler_store]; exact hs
  | getUser req =>
    refine withUser_store (Store.allTasks · Q) L env s _ _ hs fun u => ?_
    simp only [sends, getUserHandler_store]; exact hs
  | updateUser req =>
    refine withUser_store (Store.allTasks · Q) L env s _ _ hs fun u => ?_
    exact validation_store (Store.allTasks · Q) _ s _ hs (updateUserHandler_all Q L s u _ _ hs)
  | changePassword req =>
    refine withUser_store (Store.allTasks · Q) L env s _ _ hs fun u => ?_
    refine validation_store (Store.allTasks · Q) _ s _ hs ?_
    simp only [sends, (changePasswordHandler_unloaded L env s u _ _).1]; exact hs
  | deleteUser req =>
    exact withUser_store (Store.allTasks · Q) L env s _ _ hs fun u =>
      deleteUserHandler_all Q s u _ hs
  | getTasks req =>
    refine withUser_store (Store.allTasks · Q) L env s _ _ hs fun u => ?_
    simp only [sends, getTasksHandler_store]; exact hs
  | createTask req =>
    refine withUser_store (Store.allTasks · Q) L env s _ _ hs fun u => ?_
    exact validation_store (Store.allTasks · Q) _ s _ hs
      (createTaskHandler_all Q L env s u _ _ hs (hnew _))
  | updateTask req =>
    refine withUser_store (Store.allTasks · Q) L env s _ _ hs fun u => ?_
    exact validation_store (Store.allTasks · Q) _ s _ hs
      (updateTaskHandler_all Q L env s u _ _ _ hs fun t => hupd t _)
  | deleteTask req =>
    exact withUser_store (Store.allTasks · Q) L env s _ _ hs fun u =>
      deleteTaskHandler_all Q env s u _ _ hs

/-- The `updatedAt` of every stored task is a clock reading of one of the requests served
(or one the initial tasks had). -/
theorem run_stamps (L : Lib) (trace : List (Env × ApiRequest)) (s : Store) (R : Nat → Prop)
    (hs : s.allTasks fun t => R t.updatedAt) :
    (run L s trace).allTasks fun t => R t.updatedAt ∨ ∃ x ∈ trace, t.updatedAt ∈ x.1.readings := by
  induction trace generalizing s R with
  | nil => exact fun u hu t ht => Or.inl (hs u hu t ht)
  | cons x rest ih =>
    have h1 : (serve L x.1 s x.2).2.allTasks
        fun t => R t.updatedAt ∨ t.updatedAt ∈ x.1.readings := by
      refine serve_allTasks _ L x.1 s x.2 (fun u hu t ht => Or.inl (hs u hu t ht)) ?_ ?_
      · intro b; exact Or.inr (by simp [newTask, Env.readings])
      · intro t b; exact Or.inr (by simp [assignTask, Env.readings])
    intro u hu t ht
    rcases ih _ (fun n => R n ∨ n ∈ x.1.readings) h1 u hu t ht with (h | h) | ⟨y, hy, h⟩
    · exact Or.inl h
    · exact Or.inr ⟨x, List.mem_cons_self _ _, h⟩
    · exact Or.inr ⟨y, List.mem_cons_of_mem _ hy, h⟩

/-- C13 (amended): after a successful update-task request the task's `updatedAt` is the
clock reading the handler took.  In a state reached from the empty collection by requests
served one at a time, with a clock that does not run backwards from one request to the
next, that value is not less than the `updatedAt` the task had before; it is greater
unless the clock still shows the reading already stored. -/
theorem updateTask_updatedAt_not_decreased (L : Lib) (trace : List (Env × ApiRequest))
    (env : Env) (req : Request TaskBody) (r : Response) (s' : Store)
    (hclock : clockOrdered (trace ++ [(env, .updateTask req)]))
    (hupdate : updateTaskRoute L env (run L emptyStore trace) req = (some r, s'))
    (hok : r.status = 200) :
    ∃ (pre post : List Task) (old new : Task),
      (run L emptyStore trace).tasksOf req.id = pre ++ old :: post ∧
      (∀ t ∈ pre, t._id ≠ req.taskId) ∧ old._id = req.taskId ∧
      s'.tasksOf req.id = pre ++ new :: post ∧
      r.task = some new ∧
      new.updatedAt = env.handlerNow ∧
      old.updatedAt ≤ new.updatedAt ∧
      (old.updatedAt < new.updatedAt ↔ old.updatedAt ≠ env.handlerNow) := by
  obtain ⟨pre, post, old, h1, h2, h3, h4, h5⟩ := updateTaskRoute_success hupdate hok
  have hstamp : ∃ x ∈ trace, old.updatedAt ∈ x.1.readings := by
    have hmem : old ∈ (run L emptyStore trace).tasksOf req.id := by
      rw [h1]; exact List.mem_append_right _ (List.mem_cons_self _ _)
    cases hl : (run L emptyStore trace).lookup req.id with
    | none => simp [Store.tasksOf, hl] at hmem
    | some user =>
      rw [tasksOf_eq hl] at hmem
      have h0 : emptyStore.allTasks fun t => (fun _ => False) t.updatedAt :=
        fun v hv => absurd hv (List.not_mem_nil _)
      rcases run_stamps L trace emptyStore (fun _ => False) h0 user (lookup_mem hl) old hmem
        with h | h
      · exact h.elim
      · exact h
  obtain ⟨x, hx, hr⟩ := hstamp
  have hle : old.updatedAt ≤ env.handlerNow := by
    have hp := (List.pairwise_append.1 hclock).2.2 x hx (env, .updateTask req)
      (List.mem_singleton_self _)
    exact hp _ hr _ (by simp [Env.readings])
  refine ⟨pre, post, old, assignTask L env old req.body, h1, h2, h3, h4, h5, rfl, hle, ?_⟩
  show old.updatedAt < env.handlerNow ↔ old.updatedAt ≠ env.handlerNow
  omega

theorem updateTask_updatedAt_not_decreased_witness :
    clockOrdered (twinSession.take 3 ++ [(laterEnv, .updateTask finishReport)]) ∧
    updateTaskRoute sampleLib laterEnv (run sampleLib emptyStore (twinSession.take 3))
        finishReport =
      (some reportDone,
       (updateTaskRoute sampleLib laterEnv (run sampleLib emptyStore (twinSession.take 3))
         finishReport).2) ∧
    reportDone.status = 200 ∧
    ∃ (pre post : List Task) (old new : Task),
      (run sampleLib emptyStore (twinSession.take 3)).tasksOf finishReport.id
        = pre ++ old :: post ∧
      (∀ t ∈ pre, t._id ≠ finishReport.taskId) ∧ old._id = finishReport.taskId ∧
      (updateTaskRoute sampleLib laterEnv (run sampleLib emptyStore (twinSession.take 3))
        finishReport).2.tasksOf finishReport.id = pre ++ new :: post ∧
      reportDone.task = some new ∧
      new.updatedAt = laterEnv.handlerNow ∧
      old.updatedAt ≤ new.updatedAt ∧
      (old.updatedAt < new.updatedAt ↔ old.updatedAt ≠ laterEnv.handlerNow) :=
  ⟨by unfold clockOrdered; decide, by decide, by decide,
   updateTask_updatedAt_not_decreased sampleLib (twinSession.take 3) laterEnv finishReport
     reportDone _ (by unfold clockOrdered; decide) (by decide) (by decide)⟩

end TaskManager
